import Mathlib

/-!
Verification of the content-extraction heuristic pipeline of the paper-parse
repository. The Python scripts are shallowly embedded: a text file is a list
of lines (strings without their trailing newline), byte strings are lists of
naturals, and the regular-expression substitutions used by the scripts are
implemented as explicit left-to-right scanners with the exact backtracking
behaviour of the patterns that appear in the sources. External collaborators
(the HTTP client, BeautifulSoup/html2text, the PDF page-text libraries) are
passed in as explicit inputs, following the spec's external-interface list.
-/

/-! ## Python string primitives -/

/-- The whitespace characters recognised by Python's `str.strip`/`str.split`
and by the regex class `\s` (restricted to ASCII, which is all the scripts'
own literals use). -/
def pyIsSpace (c : Char) : Bool :=
  c == ' ' || c == '\t' || c == '\n' || c == '\r' || c == '\x0b' || c == '\x0c'

/-- Prefix test `pre.isPrefixOf s`, modelling Python `s.startswith(pre)`. -/
def strStartsWith (pre s : String) : Bool :=
  pre.data.isPrefixOf s.data

/-- Substring containment on character lists, modelling Python `pat in s`. -/
def containsSub (pat : List Char) : List Char → Bool
  | [] => pat.isEmpty
  | c :: rest => pat.isPrefixOf (c :: rest) || containsSub pat rest

/-- Python `pat in s` on strings. -/
def strContains (s pat : String) : Bool :=
  containsSub pat.data s.data

/-- Python `s.lower()` (ASCII). -/
def pyLower (s : String) : String :=
  String.mk (s.data.map Char.toLower)

/-- Python `s.lstrip()`. -/
def pyLstrip (s : String) : String :=
  String.mk (s.data.dropWhile pyIsSpace)

/-- Python `s.rstrip()`. -/
def pyRstrip (s : String) : String :=
  String.mk ((s.data.reverse.dropWhile pyIsSpace).reverse)

/-- Python `s.strip()`. -/
def pyStrip (s : String) : String :=
  pyLstrip (pyRstrip s)

/-- Python `s.split()` with no separator: split on whitespace runs and drop
empty pieces. -/
def pySplitWs (s : String) : List String :=
  (s.split (fun c => pyIsSpace c)).filter (fun w => w != "")

/-- Python `'\n'.join(lines)`. -/
def joinLines : List String → String
  | [] => ""
  | [x] => x
  | x :: y :: r => x ++ "\n" ++ joinLines (y :: r)

/-- Python `sep.join(parts)` for a general separator. -/
def strJoinSep (sep : String) : List String → String
  | [] => ""
  | [x] => x
  | x :: y :: r => x ++ sep ++ strJoinSep sep (y :: r)

/-- Concatenation of a list of strings (Python `''.join` / repeated `+=`). -/
def strJoin : List String → String
  | [] => ""
  | x :: r => x ++ strJoin r

/-- One fuel-indexed pass of Python `s.replace(pat, rep)` on character lists.
The scripts only call `replace` with non-empty patterns, so every match
consumes at least one character and fuel `s.length` is enough. -/
def replGo (pat rep : List Char) : Nat → List Char → List Char
  | 0, s => s
  | _ + 1, [] => []
  | f + 1, c :: cs =>
    if pat.isPrefixOf (c :: cs) then
      rep ++ replGo pat rep f ((c :: cs).drop pat.length)
    else
      c :: replGo pat rep f cs

/-- Python `s.replace(pat, rep)` (with a non-empty pattern). -/
def strReplace (s pat rep : String) : String :=
  String.mk (replGo pat.data rep.data s.data.length s.data)

/-- One fuel-indexed pass of `re.sub(r'\s+', ' ', s)`: collapse every
whitespace run to a single space. -/
def collapseWsGo : Nat → List Char → List Char
  | 0, _ => []
  | _ + 1, [] => []
  | f + 1, c :: cs =>
    if pyIsSpace c then ' ' :: collapseWsGo f (cs.dropWhile pyIsSpace)
    else c :: collapseWsGo f cs

/-- The substitution `re.sub(r'\s+', ' ', s)` used by the aggressive cleaning sweep. -/
def collapseWs (s : String) : String :=
  String.mk (collapseWsGo s.data.length s.data)

/-! ## Basic lemmas about the primitives -/

theorem strExt {a b : String} (h : a.data = b.data) : a = b := by
  cases a; cases b; exact congrArg String.mk h

theorem data_append (a b : String) : (a ++ b).data = a.data ++ b.data := rfl

theorem data_mk (l : List Char) : (String.mk l).data = l := rfl

theorem isPrefixOf_append_self (p r : List Char) : p.isPrefixOf (p ++ r) = true := by
  induction p with
  | nil => simp [List.isPrefixOf]
  | cons c cs ih => simp [List.isPrefixOf, ih]

theorem isPrefixOf_append_of_isPrefixOf (p a b : List Char)
    (h : p.isPrefixOf a = true) : p.isPrefixOf (a ++ b) = true := by
  induction p generalizing a with
  | nil => simp [List.isPrefixOf]
  | cons c cs ih =>
    cases a with
    | nil => simp [List.isPrefixOf] at h
    | cons d ds =>
      simp only [List.isPrefixOf, Bool.and_eq_true, beq_iff_eq] at h ⊢
      exact ⟨h.1, ih ds h.2⟩

theorem containsSub_nil_pat (s : List Char) : containsSub [] s = true := by
  cases s <;> simp [containsSub, List.isPrefixOf]

theorem containsSub_of_isPrefixOf (pat s : List Char)
    (h : pat.isPrefixOf s = true) : containsSub pat s = true := by
  cases s with
  | nil =>
    cases pat with
    | nil => rfl
    | cons c cs => simp [List.isPrefixOf] at h
  | cons c cs => simp [containsSub, h]

theorem containsSub_append_left (pat a b : List Char)
    (h : containsSub pat a = true) : containsSub pat (a ++ b) = true := by
  induction a with
  | nil =>
    simp only [containsSub, List.isEmpty_iff] at h
    subst h
    exact containsSub_nil_pat b
  | cons c cs ih =>
    simp only [containsSub, Bool.or_eq_true] at h ⊢
    rcases h with h | h
    · exact Or.inl (isPrefixOf_append_of_isPrefixOf _ _ _ h)
    · exact Or.inr (ih h)

theorem length_dropWhile_le_self (p : Char → Bool) (l : List Char) :
    (l.dropWhile p).length ≤ l.length := by
  induction l with
  | nil => simp
  | cons c cs ih =>
    by_cases h : p c = true
    · simp only [List.dropWhile_cons, h, if_true]
      exact Nat.le_succ_of_le ih
    · simp [List.dropWhile_cons, h]

theorem dropWhile_cons_self_head (p : Char → Bool) (c : Char) (l : List Char)
    (h : (c :: l).dropWhile p = c :: l) : p c = false := by
  by_contra hc
  have hc' : p c = true := by
    cases hpc : p c
    · exact absurd hpc hc
    · rfl
  rw [List.dropWhile_cons, if_pos hc'] at h
  have := length_dropWhile_le_self p l
  rw [h] at this
  simp at this

theorem dropWhile_append_of_ne_nil (p : Char → Bool) (a b : List Char)
    (h : a.dropWhile p ≠ []) : (a ++ b).dropWhile p = a.dropWhile p ++ b := by
  induction a with
  | nil => simp at h
  | cons c cs ih =>
    by_cases hc : p c = true
    · simp only [List.cons_append, List.dropWhile_cons, hc, if_true]
      simp only [List.dropWhile_cons, hc, if_true] at h
      exact ih h
    · simp [List.dropWhile_cons, hc]

theorem dropWhile_ne_nil_of_exists (p : Char → Bool) (l : List Char)
    (h : ∃ c ∈ l, p c = false) : l.dropWhile p ≠ [] := by
  induction l with
  | nil => simp at h
  | cons c cs ih =>
    rcases h with ⟨d, hd, hdp⟩
    rcases List.mem_cons.mp hd with rfl | hd'
    · rw [List.dropWhile_cons, if_neg (by simp [hdp])]
      simp
    · by_cases hc : p c = true
      · rw [List.dropWhile_cons, if_pos hc]
        exact ih ⟨d, hd', hdp⟩
      · rw [List.dropWhile_cons, if_neg hc]
        simp

theorem takeWhile_ne_append (d : Char) (a r : List Char) (h : d ∉ a) :
    (a ++ d :: r).takeWhile (fun c => c != d) = a := by
  induction a with
  | nil => simp [List.takeWhile_cons]
  | cons c cs ih =>
    have hc : c ≠ d := fun hcd => h (hcd ▸ List.mem_cons_self c cs)
    simp only [List.cons_append, List.takeWhile_cons, bne_iff_ne, ne_eq, hc,
      not_false_eq_true, if_true, decide_eq_true_eq]
    exact congrArg (c :: ·) (ih (fun hd => h (List.mem_cons_of_mem c hd)))

theorem dropWhile_ne_append (d : Char) (a r : List Char) (h : d ∉ a) :
    (a ++ d :: r).dropWhile (fun c => c != d) = d :: r := by
  induction a with
  | nil => simp [List.dropWhile_cons]
  | cons c cs ih =>
    have hc : c ≠ d := fun hcd => h (hcd ▸ List.mem_cons_self c cs)
    simp only [List.cons_append, List.dropWhile_cons]
    rw [if_pos (by simp [hc])]
    exact ih (fun hd => h (List.mem_cons_of_mem c hd))

theorem rstrip_append_keep (A T : String) (h : ∃ c ∈ T.data, pyIsSpace c = false) :
    pyRstrip (A ++ T) = A ++ pyRstrip T := by
  apply strExt
  show ((A.data ++ T.data).reverse.dropWhile pyIsSpace).reverse
      = A.data ++ (T.data.reverse.dropWhile pyIsSpace).reverse
  have hne : T.data.reverse.dropWhile pyIsSpace ≠ [] := by
    apply dropWhile_ne_nil_of_exists
    rcases h with ⟨c, hc, hcs⟩
    exact ⟨c, List.mem_reverse.mpr hc, hcs⟩
  rw [List.reverse_append, dropWhile_append_of_ne_nil _ _ _ hne,
    List.reverse_append, List.reverse_reverse]

theorem rstrip_fixed_append (A u : String) (hu : pyRstrip u = u) (hne : u ≠ "") :
    pyRstrip (A ++ u) = A ++ u := by
  have hdata : u.data ≠ [] := fun hd => hne (strExt (by simp [hd]))
  have hfix : u.data.reverse.dropWhile pyIsSpace = u.data.reverse := by
    have h1 := congrArg String.data hu
    simp only [pyRstrip, data_mk] at h1
    have h2 := congrArg List.reverse h1
    rwa [List.reverse_reverse] at h2
  have hex : ∃ c ∈ u.data, pyIsSpace c = false := by
    cases hrev : u.data.reverse with
    | nil => exact absurd (by simpa using congrArg List.reverse hrev) hdata
    | cons c cs =>
      rw [hrev] at hfix
      have hc : pyIsSpace c = false := dropWhile_cons_self_head _ _ _ hfix
      exact ⟨c, by rw [← List.mem_reverse, hrev]; exact List.mem_cons_self c cs, hc⟩
  rw [rstrip_append_keep A u hex, hu]

theorem replGo_no_match (pat rep : List Char) (f : Nat) (s : List Char)
    (h : containsSub pat s = false) : replGo pat rep f s = s := by
  induction f generalizing s with
  | zero => rfl
  | succ f ih =>
    cases s with
    | nil => rfl
    | cons c cs =>
      simp only [containsSub, Bool.or_eq_false_iff] at h
      simp only [replGo, h.1, Bool.false_eq_true, if_false]
      exact congrArg (c :: ·) (ih cs h.2)

theorem replGo_head_match (p r : List Char) (hp : p ≠ [])
    (h : containsSub p r = false) :
    replGo p [] (p ++ r).length (p ++ r) = r := by
  cases p with
  | nil => exact absurd rfl hp
  | cons c cs =>
    have hlen : ((c :: cs) ++ r).length = (cs ++ r).length + 1 := by simp
    rw [hlen]
    simp only [replGo, List.cons_append]
    rw [if_pos (by simp [isPrefixOf_append_self (c :: cs) r])]
    have hdrop : (c :: (cs ++ r)).drop (c :: cs).length = r := by
      have hdl := List.drop_left (c :: cs) r
      exact hdl
    simp only [List.append_eq]
    rw [hdrop]
    simp [replGo_no_match (c :: cs) [] _ r h]

/-! ## A scanner for the regex substitutions used by the scripts

`re.sub` scans the subject left to right; at each position it attempts the
pattern (with the pattern's own backtracking), emits the replacement and
resumes after the match on success, or emits one character and advances on
failure. The flag tracks whether the current position is a line start, which
is what `^` means under `re.MULTILINE`. Every pattern below consumes at
least one character when it matches, so fuel `s.length` is sufficient. -/
def reSub (tryFn : Bool → List Char → Option (List Char × List Char)) :
    Nat → Bool → List Char → List Char
  | 0, _, s => s
  | _ + 1, _, [] => []
  | f + 1, fl, c :: cs =>
    match tryFn fl (c :: cs) with
    | some (rep, rest) =>
      rep ++ reSub tryFn f
        ((((c :: cs).take ((c :: cs).length - rest.length)).getLast?) == some '\n') rest
    | none => c :: reSub tryFn f (c == '\n') cs

/-- Run one `re.sub` pass over a whole string (position 0 is a line start). -/
def runSub (tryFn : Bool → List Char → Option (List Char × List Char))
    (s : String) : String :=
  String.mk (reSub tryFn s.data.length true s.data)

/-- Match attempt for `\[([^\]]+)\]\(([^)]*)\)` replaced by the captured
text, i.e. `[text](url)` becomes `text`. -/
def linkTry (_ : Bool) (s : List Char) : Option (List Char × List Char) :=
  match s with
  | [] => none
  | c :: r1 =>
    if c = '[' then
      let t := r1.takeWhile (fun x => x != ']')
      if t.isEmpty then none
      else
        match r1.drop t.length with
        | c2 :: c3 :: r3 =>
          if c2 = ']' ∧ c3 = '(' then
            let u := r3.takeWhile (fun x => x != ')')
            match r3.drop u.length with
            | c4 :: r5 => if c4 = ')' then some (t, r5) else none
            | [] => none
          else none
        | _ => none
    else none

/-- The lazy `.*?` of the image patterns, up to the first position where the
two characters `](` follow; `.` does not match a newline. Returns what
remains after the `](`. -/
def scanToBrkParen : List Char → Option (List Char)
  | c1 :: c2 :: r =>
    if c1 = ']' ∧ c2 = '(' then some r
    else if c1 = '\n' then none
    else scanToBrkParen (c2 :: r)
  | _ => none

/-- The lazy `.*?` up to the first `)` (again not crossing a newline).
Returns what remains after the `)`. -/
def scanToParen : List Char → Option (List Char)
  | [] => none
  | c :: r => if c = ')' then some r else if c = '\n' then none else scanToParen r

/-- Match attempt for `!\[.*?\]\([^)]*\)` replaced by nothing (the image
pattern of extract_substance.py and final_extract.py). -/
def imgTryBase (_ : Bool) (s : List Char) : Option (List Char × List Char) :=
  match s with
  | c1 :: c2 :: r1 =>
    if c1 = '!' ∧ c2 = '[' then
      match scanToBrkParen r1 with
      | some r3 =>
        let u := r3.takeWhile (fun x => x != ')')
        match r3.drop u.length with
        | c4 :: r5 => if c4 = ')' then some ([], r5) else none
        | [] => none
      | none => none
    else none
  | _ => none

/-- Match attempt for `!\[.*?\]\(.*?\)` replaced by nothing (the image
pattern of polish_files.py). -/
def imgTryLazy (_ : Bool) (s : List Char) : Option (List Char × List Char) :=
  match s with
  | c1 :: c2 :: r1 =>
    if c1 = '!' ∧ c2 = '[' then
      match scanToBrkParen r1 with
      | some r3 =>
        match scanToParen r3 with
        | some r5 => some ([], r5)
        | none => none
      | none => none
    else none
  | _ => none

/-- Match attempt for `\*\*([^*]+)\*\*` replaced by the inner text. -/
def boldStarTry (_ : Bool) (s : List Char) : Option (List Char × List Char) :=
  match s with
  | c1 :: c2 :: r1 =>
    if c1 = '*' ∧ c2 = '*' then
      let t := r1.takeWhile (fun x => x != '*')
      if t.isEmpty then none
      else
        match r1.drop t.length with
        | c3 :: c4 :: r => if c3 = '*' ∧ c4 = '*' then some (t, r) else none
        | _ => none
    else none
  | _ => none

/-- Match attempt for `__([^_]+)__` replaced by the inner text. -/
def boldUnderTry (_ : Bool) (s : List Char) : Option (List Char × List Char) :=
  match s with
  | c1 :: c2 :: r1 =>
    if c1 = '_' ∧ c2 = '_' then
      let t := r1.takeWhile (fun x => x != '_')
      if t.isEmpty then none
      else
        match r1.drop t.length with
        | c3 :: c4 :: r => if c3 = '_' ∧ c4 = '_' then some (t, r) else none
        | _ => none
    else none
  | _ => none

/-- Match attempt for `\*([^*]+)\*` replaced by the inner text. -/
def italStarTry (_ : Bool) (s : List Char) : Option (List Char × List Char) :=
  match s with
  | c1 :: r1 =>
    if c1 = '*' then
      let t := r1.takeWhile (fun x => x != '*')
      if t.isEmpty then none
      else
        match r1.drop t.length with
        | c2 :: r => if c2 = '*' then some (t, r) else none
        | [] => none
    else none
  | [] => none

/-- Match attempt for `_([^_]+)_` replaced by the inner text. -/
def italUnderTry (_ : Bool) (s : List Char) : Option (List Char × List Char) :=
  match s with
  | c1 :: r1 =>
    if c1 = '_' then
      let t := r1.takeWhile (fun x => x != '_')
      if t.isEmpty then none
      else
        match r1.drop t.length with
        | c2 :: r => if c2 = '_' then some (t, r) else none
        | [] => none
    else none
  | [] => none

/-- The backquote character. -/
def tickChar : Char := Char.ofNat 96

/-- Match attempt for the inline-code pattern (backquote, one or more
non-backquote characters, backquote) replaced by the inner text. -/
def codeTickTry (_ : Bool) (s : List Char) : Option (List Char × List Char) :=
  match s with
  | c1 :: r1 =>
    if c1 = tickChar then
      let t := r1.takeWhile (fun x => x != tickChar)
      if t.isEmpty then none
      else
        match r1.drop t.length with
        | c2 :: r => if c2 = tickChar then some (t, r) else none
        | [] => none
    else none
  | [] => none

/-- Match attempt for `^\]\(` (MULTILINE) replaced by nothing. -/
def orphanTry (fl : Bool) (s : List Char) : Option (List Char × List Char) :=
  if fl then
    match s with
    | c1 :: c2 :: r => if c1 = ']' ∧ c2 = '(' then some ([], r) else none
    | _ => none
  else none

/-- Match attempt for `^\|$` (MULTILINE) replaced by nothing; `$` matches
before a newline or at the end of the subject. -/
def pipeTry (fl : Bool) (s : List Char) : Option (List Char × List Char) :=
  if fl then
    match s with
    | c :: r =>
      if c = '|' ∧ (r = [] ∨ r.head? = some '\n') then some ([], r) else none
    | [] => none
  else none

/-- Match attempt for `^---$` (MULTILINE) replaced by nothing. -/
def dashTry (fl : Bool) (s : List Char) : Option (List Char × List Char) :=
  if fl then
    match s with
    | c1 :: c2 :: c3 :: r =>
      if c1 = '-' ∧ c2 = '-' ∧ c3 = '-' ∧ (r = [] ∨ r.head? = some '\n') then
        some ([], r)
      else none
    | _ => none
  else none

/-- Match attempt for `^#+\s*$` (MULTILINE) replaced by nothing. The greedy
`\s*` backtracks until `$` holds, so it ends either at the end of the
subject or just before the last newline of the whitespace run. -/
def hashTry (fl : Bool) (s : List Char) : Option (List Char × List Char) :=
  if fl then
    let hs := s.takeWhile (fun c => c = '#')
    if hs.isEmpty then none
    else
      let r := s.drop hs.length
      let ws := r.takeWhile pyIsSpace
      let r2 := r.drop ws.length
      if r2.isEmpty then some ([], [])
      else
        let wr := ws.reverse
        let a := wr.takeWhile (fun c => c != '\n')
        if a.length = wr.length then none
        else some ([], '\n' :: (a.reverse ++ r2))
  else none

/-- Match attempt for `' +'` replaced by a single space. -/
def spaceRunTry (_ : Bool) (s : List Char) : Option (List Char × List Char) :=
  match s with
  | c :: r =>
    if c = ' ' then
      let t := r.takeWhile (fun x => x = ' ')
      some ([' '], r.drop t.length)
    else none
  | [] => none

/-- Match attempt for `\n\s*\n\s*\n\s*\n+` replaced by two newlines: it
matches at a newline whose whitespace run contains at least four newlines
and consumes through the last newline of the run. -/
def nlCollapseTry (_ : Bool) (s : List Char) : Option (List Char × List Char) :=
  match s with
  | c :: _ =>
    if c = '\n' then
      let w := s.takeWhile pyIsSpace
      if 4 ≤ w.count '\n' then
        let wr := w.reverse
        let a := wr.takeWhile (fun x => x != '\n')
        some (['\n', '\n'], a.reverse ++ s.drop w.length)
      else none
    else none
  | [] => none

/-! ## extract_substance.py -/

namespace ExtractSubstance

/-- The metadata loop shared by extract_substance.py and final_extract.py
(lines 13-21 / 43-51): collect `Source URL:` / `Final URL:` lines (rstripped)
until a line containing ten consecutive equals signs is found; the body
starts after that separator, or at index 0 when no separator exists. -/
def metaScan : Nat → List String → List String × Nat
  | _, [] => ([], 0)
  | i, l :: r =>
    if strStartsWith "Source URL:" l || strStartsWith "Final URL:" l then
      let p := metaScan (i + 1) r
      (pyRstrip l :: p.1, p.2)
    else if strContains l "==========" then ([], i + 1)
    else metaScan (i + 1) r

/-- The navigation keyword denylist of extract_substance.py. -/
def navWords : List String :=
  ["menu", "navigation", "breadcrumb", "sidebar", "footer",
   "advertisement", "subscribe", "follow us", "contact us",
   "cookie", "privacy", "terms", "sign in", "log in"]

/-- The test `re.match(r'^[\s\[\]\-\*\(\)]+$', stripped)`: non-empty and made only of
whitespace, brackets, dashes, asterisks and parentheses. -/
def symClass (c : Char) : Bool :=
  pyIsSpace c || c == '[' || c == ']' || c == '-' || c == '*' || c == '(' || c == ')'

def symbolOnly (st : String) : Bool :=
  !(st == "") && st.data.all symClass

/-- A denylisted navigation keyword occurs in the lowercased line. -/
def navHit (st : String) : Bool :=
  navWords.any (fun w => strContains (pyLower st) w)

/-- The keep test of line 48: the line contains one of `. ! ? #` or a
backquote, or is longer than 20 characters. -/
def keepCond (st : String) : Bool :=
  ".!?#`".data.any (fun c => st.data.contains c) || decide (st.length > 20)

/-- The per-line markdown cleanup of lines 49-53: links, then images, then
the two bold forms. -/
def baseLineCleanup (st : String) : String :=
  runSub boldUnderTry (runSub boldStarTry (runSub imgTryBase (runSub linkTry st)))

/-- The body filter of extract_substance.py, one line at a time: `none`
means the line is dropped, `some s` that `s` is appended to the output. -/
def keepLine (line : String) : Option String :=
  let st := pyStrip line
  if st = "" then none
  else if st.length < 3 then none
  else if symbolOnly st then none
  else if navHit st && decide (st.length < 30) then none
  else if keepCond st then some (baseLineCleanup st)
  else none

/-- extract_substance.py applied to one file (as its list of lines),
producing the text written back. -/
def extract_substance (fileLines : List String) : String :=
  let p := metaScan 0 fileLines
  let content := (fileLines.drop p.2).filterMap keepLine
  joinLines p.1 ++ "\n" ++ String.mk (List.replicate 80 '=') ++ "\n\n" ++
    joinLines content

end ExtractSubstance

/-! ## final_extract.py -/

namespace FinalExtract

/-- The stricter denylist of final_extract.py. -/
def strictNavWords : List String :=
  ["linkedin", "reddit", "facebook", "twitter", "email",
   "subscribe", "sign in", "log in", "manage cookies",
   "privacy", "cookie", "terms of use"]

/-- The test `re.search(r'[a-zA-Z]', line)`. -/
def hasLetter (line : String) : Bool :=
  line.data.any (fun c =>
    (decide ('a' ≤ c) && decide (c ≤ 'z')) || (decide ('A' ≤ c) && decide (c ≤ 'Z')))

/-- The open-brace and close-brace characters (written by code point to keep
the source free of literal braces). -/
def lbraceChar : Char := Char.ofNat 123

def rbraceChar : Char := Char.ofNat 125

/-- Match attempt for the pattern `[)(]{}\[\]]+` of final_extract.py line
31. In Python this parses as: one of `(` `)`, then the four literal
characters open-brace, close-brace, `[`, `]`, then one or more further `]`.
Returns the rest after the match. -/
def symTry (s : List Char) : Option (List Char) :=
  match s with
  | c1 :: c2 :: c3 :: c4 :: c5 :: r =>
    if (c1 = '(' ∨ c1 = ')') ∧ c2 = lbraceChar ∧ c3 = rbraceChar ∧
        c4 = '[' ∧ c5 = ']' then
      let js := r.takeWhile (fun x => x = ']')
      if js.isEmpty then none else some (r.drop js.length)
    else none
  | _ => none

/-- The count `len(re.findall(pattern, line))`: non-overlapping matches left to
right. -/
def symCountGo : Nat → List Char → Nat
  | 0, _ => 0
  | _ + 1, [] => 0
  | f + 1, c :: cs =>
    match symTry (c :: cs) with
    | some rest => 1 + symCountGo f rest
    | none => symCountGo f cs

def symCount (line : String) : Nat :=
  symCountGo line.data.length line.data

/-- final_extract.py lines 7-35. The float comparison
`symbol_count > len(words) / 2` is expressed exactly over naturals as
`2 * symbol_count > len(words)`. -/
def is_real_sentence (line : String) : Bool :=
  if !hasLetter line then false
  else if (pySplitWs line).length < 3 then false
  else if strictNavWords.any (fun w => strContains (pyLower line) w) then false
  else if strContains line "http" && strContains line "://" then false
  else if decide (2 * symCount line > (pySplitWs line).length) then false
  else true

/-- The per-line markdown cleanup of final_extract.py lines 74-75: links,
then images. -/
def strictLineCleanup (st : String) : String :=
  runSub imgTryBase (runSub linkTry st)

/-- The body filter of final_extract.py, one line at a time. -/
def keepLine (line : String) : Option String :=
  let st := pyStrip line
  if st = "" ∨ st.length < 3 then none
  else if strStartsWith "#" st then some st
  else if strContains st "```" || strStartsWith "def " st || strStartsWith "class " st then
    some st
  else if is_real_sentence st then some (strictLineCleanup st)
  else none

/-- final_extract.py applied to one file (its metadata loop is identical to
extract_substance.py's and is shared). -/
def extract_substance (fileLines : List String) : String :=
  let p := ExtractSubstance.metaScan 0 fileLines
  let content := (fileLines.drop p.2).filterMap keepLine
  joinLines p.1 ++ "\n" ++ String.mk (List.replicate 80 '=') ++ "\n\n" ++
    joinLines content

end FinalExtract

/-! ## polish_files.py -/

namespace PolishFiles

/-- The header test of polish_files.py line 16. -/
def headerCond (l : String) : Bool :=
  strStartsWith "Source URL:" l || strStartsWith "Final URL:" l ||
    strContains l "=========="

/-- The value `header_lines` takes after the loop of lines 14-17: two past the last matching
line index, or 0 when no line matches. -/
def headerScan : Nat → List String → Nat
  | _, [] => 0
  | i, l :: r =>
    let rest := headerScan (i + 1) r
    if rest ≠ 0 then rest else if headerCond l then i + 2 else 0

/-- The markdown-artifact block of polish_files.py lines 23-29: images,
links, the two bold forms, the two italic forms, inline code. -/
def markdownCleanup (s : String) : String :=
  runSub codeTickTry (runSub italUnderTry (runSub italStarTry
    (runSub boldUnderTry (runSub boldStarTry (runSub linkTry (runSub imgTryLazy s))))))

/-- The whole body pipeline of polish_files.py lines 23-40. -/
def polishBody (s : String) : String :=
  pyStrip (runSub nlCollapseTry (runSub spaceRunTry (runSub hashTry
    (runSub dashTry (runSub pipeTry (runSub orphanTry (markdownCleanup s)))))))

/-- polish_files.py applied to one file. -/
def polish_file (fileLines : List String) : String :=
  let hl := headerScan 0 fileLines
  let metadata := joinLines (fileLines.take hl)
  let body := joinLines (fileLines.drop hl)
  pyRstrip metadata ++ "\n\n" ++ polishBody body

end PolishFiles

/-! ## convert_html_to_clean_text.py -/

namespace ConvertHtml

/-- The fold of extract_metadata (lines 13-24) over the first five lines:
later matches overwrite earlier ones. -/
def metaFold : Option String × Option String → List String → Option String × Option String
  | acc, [] => acc
  | acc, l :: r =>
    if strStartsWith "Source URL:" l then
      metaFold (some (pyStrip (strReplace l "Source URL:" "")), acc.2) r
    else if strStartsWith "Final URL:" l then
      metaFold (acc.1, some (pyStrip (strReplace l "Final URL:" ""))) r
    else metaFold acc r

def extract_metadata (fileLines : List String) : Option String × Option String :=
  metaFold (none, none) (fileLines.take 5)

/-- The content-section test of line 99 (note: any line starting with a
single `=`). -/
def endCond (l : String) : Bool :=
  strStartsWith "Source URL:" l || strStartsWith "Final URL:" l ||
    strStartsWith "=" l

/-- The value `metadata_end` takes after the loop of lines 97-100: one past the last
matching line index, or 0 when no line matches. -/
def endScan : Nat → List String → Nat
  | _, [] => 0
  | i, l :: r =>
    let rest := endScan (i + 1) r
    if rest ≠ 0 then rest else if endCond l then i + 1 else 0

/-- process_file (lines 86-120). `clean` stands for
convert_html_to_clean_text, whose work is delegated to the external
BeautifulSoup and html2text collaborators; the header behaviour under
verification is independent of it. -/
def process_file (clean : String → String) (fileLines : List String) : String :=
  let meta := extract_metadata fileLines
  let me := endScan 0 fileLines
  let cleanText := clean (joinLines (fileLines.drop me))
  (match meta.1 with
   | some s => "Source URL: " ++ s ++ "\n"
   | none => "") ++
  (match meta.2 with
   | some s => "Final URL: " ++ s ++ "\n"
   | none => "") ++
  String.mk (List.replicate 80 '=') ++ "\n\n" ++ cleanText

end ConvertHtml

/-! ## aggressive_clean.py -/

namespace AggressiveClean

/-- The reconstruction of clean_file lines 131-144, given the parsed
metadata and the extracted text. -/
def clean_output (srcUrl finalUrl : Option String) (cleaned : String) : String :=
  let header : List String :=
    (match srcUrl with
     | some u => ["Source URL: " ++ u]
     | none => []) ++
    (match finalUrl with
     | some u => ["Final URL: " ++ u]
     | none => [])
  joinLines ((if header.isEmpty then [] else
    header ++ [String.mk (List.replicate 80 '='), ""]) ++ [cleaned])

/-- clean_file from line 126 on: `cleaned` is the text produced by the
ContentExtractor/regex-fallback stage (lines 115-124, delegated to the
html.parser collaborator). `none` models `return False` with the file left
unwritten; `some out` models writing `out` and returning True. -/
def clean_file_write (srcUrl finalUrl : Option String) (cleaned : String) :
    Option String :=
  if (collapseWs cleaned).length < 150 then none
  else some (clean_output srcUrl finalUrl cleaned)

/-- What the sweep of main (lines 157-168) does to one file. -/
inductive FileFate
  | deleted
  | written (content : String)
deriving DecidableEq

/-- main lines 157-168: a False result deletes the file, a True result
leaves the rewritten file in place. -/
def sweepFate (srcUrl finalUrl : Option String) (cleaned : String) : FileFate :=
  match clean_file_write srcUrl finalUrl cleaned with
  | none => FileFate.deleted
  | some out => FileFate.written out

end AggressiveClean

/-! ## scrape_additional_links.py -/

namespace ScrapeLinks

/-- is_pdf_content (lines 126-128): the first four bytes equal `%PDF`
(0x25 0x50 0x44 0x46). -/
def is_pdf_content (content : List Nat) : Bool :=
  content.take 4 == [37, 80, 68, 70]

/-- The outcome of `requests.get` followed by `raise_for_status`: either the
request raised (network error, timeout, ...) or a response arrived with a
status code, body bytes and a final URL. -/
inductive HttpOutcome
  | exn
  | resp (status : Nat) (content : List Nat) (finalUrl : String)

/-- fetch_url (lines 112-123): any exception, including the one
`raise_for_status` raises on a 4xx/5xx status, is caught and turned into
`(None, None)`. -/
def fetch_url : HttpOutcome → Option (List Nat × String)
  | HttpOutcome.exn => none
  | HttpOutcome.resp st c u => if 400 ≤ st ∧ st < 600 then none else some (c, u)

/-- The file write scrape_link performs (the record's header and text are
what lines 182-186 / 195-199 write; only the routing and filename matter to
the claims). -/
inductive SaveAction
  | pdfFile (filename : String)
  | webFile (filename : String)
deriving DecidableEq

/-- scrape_link (lines 165-205), given the already-sanitized filename stem
(sanitize_filename delegates to urllib's URL parsing), the fetch result and
the result `extract_pdf_text` would produce (delegated to the PDF
libraries). Returns the Python return value and the file written, if any. -/
def scrape_link (sanitized : String) (fetched : Option (List Nat × String))
    (pdfText : Option String) : Bool × Option SaveAction :=
  match fetched with
  | none => (false, none)
  | some (content, _) =>
    if content.isEmpty then (false, none)
    else if is_pdf_content content then
      match pdfText with
      | some _ => (true, some (SaveAction.pdfFile ("pdf_" ++ sanitized ++ ".txt")))
      | none => (false, none)
    else (true, some (SaveAction.webFile ("web_" ++ sanitized ++ ".txt")))

/-- The skip conditions of main (lines 222-235). -/
def skippedUrl (url : String) : Bool :=
  strStartsWith "https://www.youtube.com" url || strStartsWith "https://youtu.be" url ||
    url == "https://cedric.cnam.fr/fichiers/RC474.pdf" ||
    url == "https://raft.github.io/raft.pdf" ||
    url == "https://lamport.azurewebsites.net/pubs/disk-paxos.pdf;"

/-- The counters of main's loop (lines 218-240): (successful, failed,
skipped), with `result url` the Boolean scrape_link returns for `url`. -/
def mainCounts (result : String → Bool) : List String → Nat × Nat × Nat
  | [] => (0, 0, 0)
  | u :: rest =>
    let p := mainCounts result rest
    if skippedUrl u then (p.1, p.2.1, p.2.2 + 1)
    else if result u then (p.1 + 1, p.2.1, p.2.2)
    else (p.1, p.2.1 + 1, p.2.2)

end ScrapeLinks

/-! ## src/batch_convert_pymupdf.py and scrape_pdfs.py -/

namespace BatchPymupdf

/-- The page loop of batch_convert_pymupdf.py lines 49-52, with `pages` the
per-page results of the external `page.get_text()`. -/
def pageLoop : Nat → List String → String
  | _, [] => ""
  | i, p :: rest =>
    (if p = "" then "" else "\n--- Page " ++ toString (i + 1) ++ " ---\n" ++ p) ++
      pageLoop (i + 1) rest

/-- The text accumulated for one PDF. -/
def convert_text (pages : List String) : String :=
  pageLoop 0 pages

end BatchPymupdf

namespace ScrapePdfs

/-- extract_text_pdfplumber (scrape_pdfs.py lines 83-95), with `pages` the
per-page results of the external `page.extract_text()` (`none` when the
library returns None). Pages with no text are skipped; the rest are joined
with blank lines. -/
def extract_text_pdfplumber (pages : List (Option String)) : String :=
  strJoinSep "\n\n" (pages.filterMap (fun o =>
    match o with
    | none => none
    | some t => if t = "" then none else some t))

end ScrapePdfs

/-! ## fix_github.py -/

namespace FixGithub

/-- Split off a `[^/]+` segment: the characters before the first slash, and
the remainder from that slash on. -/
def segSplit (l : List Char) : List Char × List Char :=
  (l.takeWhile (fun c => c != '/'), l.dropWhile (fun c => c != '/'))

/-- The anchored part all three patterns share. -/
def ghHead : List Char := "https://github.com/".data

/-- The match `re.match(r'https://github\.com/([^/]+)/([^/]+)/blob/([^/]+)/(.+)', url)`
after the anchor has been removed. -/
def blobParse (l : List Char) : Option (List Char × List Char × List Char × List Char) :=
  let s1 := segSplit l
  if s1.1.isEmpty then none
  else
    match s1.2 with
    | [] => none
    | c :: r2 =>
      if c = '/' then
        let s2 := segSplit r2
        if s2.1.isEmpty then none
        else
          match s2.2 with
          | [] => none
          | c2 :: r4 =>
            if c2 = '/' then
              if "blob/".data.isPrefixOf r4 then
                let r5 := r4.drop 5
                let s3 := segSplit r5
                if s3.1.isEmpty then none
                else
                  match s3.2 with
                  | [] => none
                  | c3 :: r7 =>
                    if c3 = '/' then
                      if r7.isEmpty then none else some (s1.1, s2.1, s3.1, r7)
                    else none
              else none
            else none
      else none

/-- The same with `tree` in place of `blob`. -/
def treeParse (l : List Char) : Option (List Char × List Char × List Char × List Char) :=
  let s1 := segSplit l
  if s1.1.isEmpty then none
  else
    match s1.2 with
    | [] => none
    | c :: r2 =>
      if c = '/' then
        let s2 := segSplit r2
        if s2.1.isEmpty then none
        else
          match s2.2 with
          | [] => none
          | c2 :: r4 =>
            if c2 = '/' then
              if "tree/".data.isPrefixOf r4 then
                let r5 := r4.drop 5
                let s3 := segSplit r5
                if s3.1.isEmpty then none
                else
                  match s3.2 with
                  | [] => none
                  | c3 :: r7 =>
                    if c3 = '/' then
                      if r7.isEmpty then none else some (s1.1, s2.1, s3.1, r7)
                    else none
              else none
            else none
      else none

/-- The match `re.match(r'https://github\.com/([^/]+)/([^/]+)/?$', url)` after the
anchor has been removed. -/
def repoParse (l : List Char) : Option (List Char × List Char) :=
  let s1 := segSplit l
  if s1.1.isEmpty then none
  else
    match s1.2 with
    | [] => none
    | c :: r2 =>
      if c = '/' then
        let s2 := segSplit r2
        if s2.1.isEmpty then none
        else
          match s2.2 with
          | [] => some (s1.1, s2.1)
          | [c2] => if c2 = '/' then some (s1.1, s2.1) else none
          | _ => none
      else none

/-- convert_github_to_raw (fix_github.py lines 11-39). -/
def convert_github_to_raw (url : String) : Option String :=
  if strContains url "raw.githubusercontent.com" then some url
  else if !(strContains url "github.com") then none
  else if ghHead.isPrefixOf url.data then
    let rest := url.data.drop ghHead.length
    match blobParse rest with
    | some (user, repo, branch, path) =>
      some (String.mk ("https://raw.githubusercontent.com/".data ++
        user ++ '/' :: repo ++ '/' :: branch ++ '/' :: path))
    | none =>
      match treeParse rest with
      | some (user, repo, branch, path) =>
        some (String.mk ("https://raw.githubusercontent.com/".data ++
          user ++ '/' :: repo ++ '/' :: branch ++ '/' :: path ++ "/README.md".data))
      | none =>
        match repoParse rest with
        | some (user, repo) =>
          some (String.mk ("https://raw.githubusercontent.com/".data ++
            user ++ '/' :: repo ++ "/master/README.md".data))
        | none => none
  else none

end FixGithub

/-! ## Claim C2: minimum-substance deletion -/

/-- C2. For every record processed by the aggressive cleaning sweep, the file
is left unwritten (clean_file returns False) and deleted by the sweep exactly
when the cleaned text with whitespace runs collapsed is shorter than 150
characters; otherwise it is overwritten with the reconstructed record and not
deleted. -/
theorem c2_min_substance_deletion (srcUrl finalUrl : Option String) (cleaned : String) :
    (AggressiveClean.clean_file_write srcUrl finalUrl cleaned = none ↔
      (collapseWs cleaned).length < 150) ∧
    (AggressiveClean.sweepFate srcUrl finalUrl cleaned = AggressiveClean.FileFate.deleted ↔
      (collapseWs cleaned).length < 150) ∧
    (AggressiveClean.sweepFate srcUrl finalUrl cleaned =
        AggressiveClean.FileFate.written (AggressiveClean.clean_output srcUrl finalUrl cleaned) ↔
      150 ≤ (collapseWs cleaned).length) := by
  by_cases h : (collapseWs cleaned).length < 150
  · simp [AggressiveClean.clean_file_write, AggressiveClean.sweepFate, h]
  · simp [AggressiveClean.clean_file_write, AggressiveClean.sweepFate, h]
    omega

/-! ## Claim C4: short-line drop -/

/-- C4. A body line whose stripped text has fewer than 3 characters is
dropped by both the base substance filter and the stricter variant. -/
theorem c4_short_line_drop (line : String) (h : (pyStrip line).length < 3) :
    ExtractSubstance.keepLine line = none ∧ FinalExtract.keepLine line = none := by
  constructor
  · unfold ExtractSubstance.keepLine
    by_cases he : pyStrip line = ""
    · simp [he]
    · simp [he, h]
  · unfold FinalExtract.keepLine
    simp [h]

/-- Witness for C4 at the concrete line "ab". -/
theorem c4_short_line_drop_witness :
    (pyStrip "ab").length < 3 ∧
      (ExtractSubstance.keepLine "ab" = none ∧ FinalExtract.keepLine "ab" = none) :=
  ⟨by decide, c4_short_line_drop "ab" (by decide)⟩

/-! ## Claim C5: content classification -/

/-- C5. is_pdf_content holds exactly when the first four bytes are the PDF
magic marker; scrape_link saves PDF-classified content (whose text
extraction succeeds) under a `pdf_` filename and everything else under a
`web_` filename — there is no third route. -/
theorem c5_content_classification :
    (∀ content : List Nat,
       ScrapeLinks.is_pdf_content content = true ↔ content.take 4 = [37, 80, 68, 70]) ∧
    (∀ (sanitized finalUrl : String) (content : List Nat) (t : String),
       ScrapeLinks.is_pdf_content content = true → content ≠ [] →
       ScrapeLinks.scrape_link sanitized (some (content, finalUrl)) (some t) =
         (true, some (ScrapeLinks.SaveAction.pdfFile ("pdf_" ++ sanitized ++ ".txt")))) ∧
    (∀ (sanitized finalUrl : String) (content : List Nat) (pdfText : Option String),
       ScrapeLinks.is_pdf_content content = false → content ≠ [] →
       ScrapeLinks.scrape_link sanitized (some (content, finalUrl)) pdfText =
         (true, some (ScrapeLinks.SaveAction.webFile ("web_" ++ sanitized ++ ".txt")))) := by
  refine ⟨?_, ?_, ?_⟩
  · intro content
    simp [ScrapeLinks.is_pdf_content]
  · intro sanitized finalUrl content t hpdf hne
    simp [ScrapeLinks.scrape_link, List.isEmpty_iff, hne, hpdf]
  · intro sanitized finalUrl content pdfText hpdf hne
    simp [ScrapeLinks.scrape_link, List.isEmpty_iff, hne, hpdf]

/-- Witness for C5 on a PDF-marked byte string and an HTML byte string. -/
theorem c5_content_classification_witness :
    (ScrapeLinks.is_pdf_content [37, 80, 68, 70, 0] = true ∧ [37, 80, 68, 70, 0].take 4 = [37, 80, 68, 70]) ∧
    ScrapeLinks.scrape_link "x" (some ([37, 80, 68, 70, 0], "f")) (some "text") =
      (true, some (ScrapeLinks.SaveAction.pdfFile "pdf_x.txt")) ∧
    ScrapeLinks.scrape_link "y" (some ([60, 104, 116], "f")) none =
      (true, some (ScrapeLinks.SaveAction.webFile "web_y.txt")) := by
  refine ⟨⟨by decide, (c5_content_classification.1 [37, 80, 68, 70, 0]).mp (by decide)⟩, ?_, ?_⟩
  · exact c5_content_classification.2.1 "x" "f" [37, 80, 68, 70, 0] "text" (by decide) (by decide)
  · exact c5_content_classification.2.2 "y" "f" [60, 104, 116] none (by decide) (by decide)

/-! ## Claim C8: fetch failure is non-fatal -/

/-- C8. A raised request or an error status makes fetch_url return
`(None, None)` instead of propagating; scrape_link then returns False, and
the main loop classifies every URL of the batch as successful, failed or
skipped — it never stops early, whatever the per-URL outcomes are. -/
theorem c8_fetch_failure_nonfatal :
    (ScrapeLinks.fetch_url ScrapeLinks.HttpOutcome.exn = none) ∧
    (∀ (status : Nat) (content : List Nat) (finalUrl : String),
       400 ≤ status → status < 600 →
       ScrapeLinks.fetch_url (ScrapeLinks.HttpOutcome.resp status content finalUrl) = none) ∧
    (∀ (sanitized : String) (pdfText : Option String),
       ScrapeLinks.scrape_link sanitized none pdfText = (false, none)) ∧
    (∀ (result : String → Bool) (urls : List String),
       (ScrapeLinks.mainCounts result urls).1 + (ScrapeLinks.mainCounts result urls).2.1 +
         (ScrapeLinks.mainCounts result urls).2.2 = urls.length) := by
  refine ⟨rfl, ?_, ?_, ?_⟩
  · intro status content finalUrl h h2
    simp [ScrapeLinks.fetch_url, h, h2]
  · intro sanitized pdfText
    rfl
  · intro result urls
    induction urls with
    | nil => rfl
    | cons u rest ih =>
      simp only [ScrapeLinks.mainCounts]
      split_ifs <;> simp <;> omega

/-- Witness for C8: a 500 response is swallowed, the scrape reports failure,
and a batch containing it still accounts for all of its URLs. -/
theorem c8_fetch_failure_nonfatal_witness :
    ScrapeLinks.fetch_url (ScrapeLinks.HttpOutcome.resp 500 [1] "u") = none ∧
    ScrapeLinks.scrape_link "x" none none = (false, none) ∧
    (ScrapeLinks.mainCounts (fun _ => false) ["http://a", "http://b"]).1 +
      (ScrapeLinks.mainCounts (fun _ => false) ["http://a", "http://b"]).2.1 +
      (ScrapeLinks.mainCounts (fun _ => false) ["http://a", "http://b"]).2.2 = 2 :=
  ⟨c8_fetch_failure_nonfatal.2.1 500 [1] "u" (by decide) (by decide),
   c8_fetch_failure_nonfatal.2.2.1 "x" none,
   c8_fetch_failure_nonfatal.2.2.2 (fun _ => false) ["http://a", "http://b"]⟩

/-! ## Claim C9: PDF page markers -/

theorem pageLoop_enumFrom (pages : List String) : ∀ i : Nat,
    BatchPymupdf.pageLoop i pages =
      strJoin (((List.enumFrom i pages).filter (fun p => p.2 != "")).map
        (fun p => "\n--- Page " ++ toString (p.1 + 1) ++ " ---\n" ++ p.2)) := by
  induction pages with
  | nil => intro i; rfl
  | cons p rest ih =>
    intro i
    by_cases hp : p = ""
    · subst hp
      simp only [BatchPymupdf.pageLoop]
      rw [ih (i + 1)]
      simp [List.enumFrom, List.filter_cons]
    · simp only [BatchPymupdf.pageLoop]
      rw [ih (i + 1)]
      simp [List.enumFrom, List.filter_cons, hp, strJoin]

theorem filterMap_pages (pages : List (Option String)) :
    pages.filterMap (fun o =>
      match o with
      | none => none
      | some t => if t = "" then none else some t) =
    (pages.filterMap id).filter (fun t => t != "") := by
  induction pages with
  | nil => rfl
  | cons o rest ih =>
    cases o with
    | none => simpa [List.filterMap_cons] using ih
    | some t =>
      by_cases ht : t = ""
      · subst ht
        simpa [List.filterMap_cons, List.filter_cons] using ih
      · simp [List.filterMap_cons, List.filter_cons, ht, ih]

/-- C9 (amended). The PyMuPDF batch converter writes, for each page whose
extracted text is non-empty, the marker line for that page's original
1-based number followed by the page text, in page order; in particular a
2-page PDF yielding "Intro" and "Body" produces the two marked sections in
order. The pdfplumber extractor also skips empty pages but joins the
remaining page texts with blank lines, without page markers. -/
theorem c9_pdf_page_markers :
    (∀ pages : List String, BatchPymupdf.convert_text pages =
       strJoin (((List.enum pages).filter (fun p => p.2 != "")).map
         (fun p => "\n--- Page " ++ toString (p.1 + 1) ++ " ---\n" ++ p.2))) ∧
    (∀ pages : List (Option String), ScrapePdfs.extract_text_pdfplumber pages =
       strJoinSep "\n\n" ((pages.filterMap id).filter (fun t => t != ""))) ∧
    BatchPymupdf.convert_text ["Intro", "Body"] =
      "\n--- Page 1 ---\nIntro\n--- Page 2 ---\nBody" := by
  refine ⟨?_, ?_, by decide⟩
  · intro pages
    exact pageLoop_enumFrom pages 0
  · intro pages
    unfold ScrapePdfs.extract_text_pdfplumber
    rw [filterMap_pages]

/-- Counterexample for C9 as stated: the pdfplumber extractor named by the
claim produces no page markers at all. -/
theorem c9_counterexample :
    ScrapePdfs.extract_text_pdfplumber [some "Intro", some "Body"] = "Intro\n\nBody" ∧
    strContains (ScrapePdfs.extract_text_pdfplumber [some "Intro", some "Body"])
      "--- Page 1 ---" = false := by
  constructor
  · rfl
  · decide

/-! ## Claim C7: the stricter variant's exclusions -/

/-- C7. is_real_sentence returns True exactly for lines that contain a
letter, have at least 3 whitespace-separated words, contain none of the
sharing/social/legal keywords (at any length), do not contain both `http`
and `://`, and whose count of symbol-pattern matches does not exceed half
the word count; each exclusion alone therefore forces False. -/
theorem c7_is_real_sentence_characterization (line : String) :
    FinalExtract.is_real_sentence line = true ↔
      (FinalExtract.hasLetter line = true ∧
       3 ≤ (pySplitWs line).length ∧
       (∀ w ∈ FinalExtract.strictNavWords, strContains (pyLower line) w = false) ∧
       ¬(strContains line "http" = true ∧ strContains line "://" = true) ∧
       2 * FinalExtract.symCount line ≤ (pySplitWs line).length) := by
  unfold FinalExtract.is_real_sentence
  split_ifs with h1 h2 h3 h4 h5
  · simp only [Bool.not_eq_true'] at h1
    simp [h1]
  · simp only [Bool.not_eq_true] at h1
    constructor
    · intro h; cases h
    · rintro ⟨-, hw, -⟩
      omega
  · simp only [List.any_eq_true] at h3
    rcases h3 with ⟨w, hw, hcw⟩
    constructor
    · intro h; cases h
    · rintro ⟨-, -, hnav, -⟩
      rw [hnav w hw] at hcw
      cases hcw
  · simp only [Bool.and_eq_true] at h4
    constructor
    · intro h; cases h
    · rintro ⟨-, -, -, hurl, -⟩
      exact absurd h4 hurl
  · simp only [decide_eq_true_eq] at h5
    constructor
    · intro h; cases h
    · rintro ⟨-, -, -, -, hsym⟩
      omega
  · have hl : FinalExtract.hasLetter line = true := by
      cases hb : FinalExtract.hasLetter line
      · exact absurd (by simp [hb]) h1
      · rfl
    have hw : 3 ≤ (pySplitWs line).length := by omega
    have hsym : 2 * FinalExtract.symCount line ≤ (pySplitWs line).length := by
      have h5' : ¬(2 * FinalExtract.symCount line > (pySplitWs line).length) := by
        simpa using h5
      omega
    have hnav : ∀ w ∈ FinalExtract.strictNavWords, strContains (pyLower line) w = false := by
      intro w hwmem
      cases hcw : strContains (pyLower line) w
      · rfl
      · exact absurd (List.any_eq_true.mpr ⟨w, hwmem, by simp [hcw]⟩) h3
    have hurl : ¬(strContains line "http" = true ∧ strContains line "://" = true) := by
      intro hp
      exact h4 (by simp [hp.1, hp.2])
    exact ⟨fun _ => ⟨hl, hw, hnav, hurl, hsym⟩, fun _ => rfl⟩

/-! ## Claim C3: heading precedence -/

/-- Counterexample for C3 as stated: the heading line "# Menu" (which starts
with `#`) is dropped by the base substance filter, because the navigation
keyword check of extract_substance.py runs before the heading/keep test. -/
theorem c3_counterexample :
    strStartsWith "#" (pyStrip "# Menu") = true ∧
      ExtractSubstance.keepLine "# Menu" = none := by
  decide

/-- C3 (amended). A body line whose stripped text starts with `#` is kept by
the stricter filter whenever the stripped text has at least 3 characters
(there, the heading rule does take precedence over the remaining drop
rules), and by the base filter whenever additionally it is not a
short-line/navigation-keyword hit (under 30 characters while containing a
denylisted keyword). -/
theorem c3_heading_keep_amended (line : String)
    (hh : strStartsWith "#" (pyStrip line) = true)
    (hlen : 3 ≤ (pyStrip line).length) :
    FinalExtract.keepLine line = some (pyStrip line) ∧
    (ExtractSubstance.navHit (pyStrip line) = false ∨ ¬((pyStrip line).length < 30) →
      ExtractSubstance.keepLine line =
        some (ExtractSubstance.baseLineCleanup (pyStrip line))) := by
  obtain ⟨t, hdata⟩ : ∃ t, (pyStrip line).data = '#' :: t := by
    cases hs : (pyStrip line).data with
    | nil =>
      rw [strStartsWith, hs] at hh
      simp [List.isPrefixOf] at hh
    | cons c cs =>
      rw [strStartsWith, hs] at hh
      simp only [List.isPrefixOf, Bool.and_eq_true, beq_iff_eq] at hh
      exact ⟨cs, by rw [hh.1]⟩
  have hne : pyStrip line ≠ "" := by
    intro he
    rw [he] at hdata
    simp at hdata
  have hn3 : ¬((pyStrip line).length < 3) := by omega
  constructor
  · unfold FinalExtract.keepLine
    rw [if_neg (by push_neg; exact ⟨hne, by omega⟩)]
    rw [if_pos hh]
  · intro hnav
    unfold ExtractSubstance.keepLine
    rw [if_neg hne, if_neg hn3]
    have hsymc : ExtractSubstance.symClass '#' = false := by decide
    have hsym : ExtractSubstance.symbolOnly (pyStrip line) = false := by
      simp [ExtractSubstance.symbolOnly, hdata, hsymc]
    rw [hsym]
    simp only [Bool.false_eq_true, if_false]
    have hnavc : (ExtractSubstance.navHit (pyStrip line) &&
        decide ((pyStrip line).length < 30)) = false := by
      rcases hnav with hn | hn
      · simp [hn]
      · simp [hn]
    rw [hnavc]
    simp only [Bool.false_eq_true, if_false]
    have hcontains : (pyStrip line).data.contains '#' = true := by
      rw [hdata]
      simp
    have hkeep : ExtractSubstance.keepCond (pyStrip line) = true := by
      unfold ExtractSubstance.keepCond
      have hany : (".!?#`".data.any (fun c => (pyStrip line).data.contains c)) = true :=
        List.any_eq_true.mpr ⟨'#', by decide, hcontains⟩
      rw [hany]
      simp
    rw [hkeep]
    simp

/-- Witness for the amended C3 at the concrete heading "# Menu" (kept by the
stricter filter even though it contains a navigation keyword) and at a long
heading for the base filter. -/
theorem c3_heading_keep_amended_witness :
    FinalExtract.keepLine "# Menu" = some (pyStrip "# Menu") ∧
      ExtractSubstance.keepLine "# About our cookie policies page" =
        some (ExtractSubstance.baseLineCleanup (pyStrip "# About our cookie policies page")) :=
  ⟨(c3_heading_keep_amended "# Menu" (by decide) (by decide)).1,
   (c3_heading_keep_amended "# About our cookie policies page" (by decide)
     (by decide)).2 (Or.inr (by decide))⟩

/-! ## Claim C10: GitHub raw-URL mapping -/

theorem takeWhile_ne_all (d : Char) (a : List Char) (h : d ∉ a) :
    a.takeWhile (fun c => c != d) = a := by
  induction a with
  | nil => rfl
  | cons c cs ih =>
    have hc : c ≠ d := fun hcd => h (hcd ▸ List.mem_cons_self c cs)
    simp only [List.takeWhile_cons, bne_iff_ne, ne_eq, hc, not_false_eq_true,
      decide_eq_true_eq, if_true]
    exact congrArg (c :: ·) (ih (fun hd => h (List.mem_cons_of_mem c hd)))

theorem dropWhile_ne_all (d : Char) (a : List Char) (h : d ∉ a) :
    a.dropWhile (fun c => c != d) = [] := by
  induction a with
  | nil => rfl
  | cons c cs ih =>
    have hc : c ≠ d := fun hcd => h (hcd ▸ List.mem_cons_self c cs)
    rw [List.dropWhile_cons, if_pos (by simp [hc])]
    exact ih (fun hd => h (List.mem_cons_of_mem c hd))

theorem segSplit_append (a r : List Char) (h : '/' ∉ a) :
    FixGithub.segSplit (a ++ '/' :: r) = (a, '/' :: r) := by
  unfold FixGithub.segSplit
  rw [takeWhile_ne_append '/' a r h, dropWhile_ne_append '/' a r h]

theorem segSplit_all (a : List Char) (h : '/' ∉ a) :
    FixGithub.segSplit a = (a, []) := by
  unfold FixGithub.segSplit
  rw [takeWhile_ne_all '/' a h, dropWhile_ne_all '/' a h]

theorem blobParse_eq (user repo branch path : List Char)
    (hu : user ≠ []) (hu2 : '/' ∉ user) (hr : repo ≠ []) (hr2 : '/' ∉ repo)
    (hb : branch ≠ []) (hb2 : '/' ∉ branch) (hp : path ≠ []) :
    FixGithub.blobParse
        (user ++ '/' :: (repo ++ '/' :: ("blob/".data ++ (branch ++ '/' :: path)))) =
      some (user, repo, branch, path) := by
  have h1 := segSplit_append user (repo ++ '/' :: ("blob/".data ++ (branch ++ '/' :: path))) hu2
  have h2 := segSplit_append repo ("blob/".data ++ (branch ++ '/' :: path)) hr2
  have h3 := segSplit_append branch path hb2
  have h4 : ("blob/".data).isPrefixOf ("blob/".data ++ (branch ++ '/' :: path)) = true :=
    isPrefixOf_append_self _ _
  have h5 : ("blob/".data ++ (branch ++ '/' :: path)).drop 5 = branch ++ '/' :: path :=
    List.drop_left "blob/".data (branch ++ '/' :: path)
  simp only [FixGithub.blobParse, h1, h2, h3, h4, h5]
  simp [hu, hr, hb, hp]

theorem treeParse_eq (user repo branch path : List Char)
    (hu : user ≠ []) (hu2 : '/' ∉ user) (hr : repo ≠ []) (hr2 : '/' ∉ repo)
    (hb : branch ≠ []) (hb2 : '/' ∉ branch) (hp : path ≠ []) :
    FixGithub.treeParse
        (user ++ '/' :: (repo ++ '/' :: ("tree/".data ++ (branch ++ '/' :: path)))) =
      some (user, repo, branch, path) := by
  have h1 := segSplit_append user (repo ++ '/' :: ("tree/".data ++ (branch ++ '/' :: path))) hu2
  have h2 := segSplit_append repo ("tree/".data ++ (branch ++ '/' :: path)) hr2
  have h3 := segSplit_append branch path hb2
  have h4 : ("tree/".data).isPrefixOf ("tree/".data ++ (branch ++ '/' :: path)) = true :=
    isPrefixOf_append_self _ _
  have h5 : ("tree/".data ++ (branch ++ '/' :: path)).drop 5 = branch ++ '/' :: path :=
    List.drop_left "tree/".data (branch ++ '/' :: path)
  simp only [FixGithub.treeParse, h1, h2, h3, h4, h5]
  simp [hu, hr, hb, hp]

theorem blobParse_tree_none (user repo branch path : List Char)
    (hu2 : '/' ∉ user) (hr2 : '/' ∉ repo) :
    FixGithub.blobParse
        (user ++ '/' :: (repo ++ '/' :: ("tree/".data ++ (branch ++ '/' :: path)))) = none := by
  have h1 := segSplit_append user (repo ++ '/' :: ("tree/".data ++ (branch ++ '/' :: path))) hu2
  have h2 := segSplit_append repo ("tree/".data ++ (branch ++ '/' :: path)) hr2
  have h4 : ("blob/".data).isPrefixOf ("tree/".data ++ (branch ++ '/' :: path)) = false := rfl
  simp only [FixGithub.blobParse, h1, h2, h4]
  simp

theorem blobParse_repo_none (user repo : List Char)
    (hu2 : '/' ∉ user) (hr2 : '/' ∉ repo) :
    FixGithub.blobParse (user ++ '/' :: repo) = none := by
  have h1 := segSplit_append user repo hu2
  have h2 := segSplit_all repo hr2
  simp only [FixGithub.blobParse, h1, h2]
  simp

theorem treeParse_repo_none (user repo : List Char)
    (hu2 : '/' ∉ user) (hr2 : '/' ∉ repo) :
    FixGithub.treeParse (user ++ '/' :: repo) = none := by
  have h1 := segSplit_append user repo hu2
  have h2 := segSplit_all repo hr2
  simp only [FixGithub.treeParse, h1, h2]
  simp

theorem repoParse_eq (user repo : List Char)
    (hu : user ≠ []) (hu2 : '/' ∉ user) (hr : repo ≠ []) (hr2 : '/' ∉ repo) :
    FixGithub.repoParse (user ++ '/' :: repo) = some (user, repo) := by
  have h1 := segSplit_append user repo hu2
  have h2 := segSplit_all repo hr2
  simp only [FixGithub.repoParse, h1, h2]
  simp [hu, hr]

theorem ghHead_contains_github (X : List Char) :
    strContains (String.mk (FixGithub.ghHead ++ X)) "github.com" = true := by
  show containsSub "github.com".data (FixGithub.ghHead ++ X) = true
  exact containsSub_append_left _ _ _ (by decide)

theorem ghConvert_blob (user repo branch path : List Char)
    (hu : user ≠ []) (hu2 : '/' ∉ user) (hr : repo ≠ []) (hr2 : '/' ∉ repo)
    (hb : branch ≠ []) (hb2 : '/' ∉ branch) (hp : path ≠ [])
    (hraw : strContains
      (String.mk (FixGithub.ghHead ++
        (user ++ '/' :: (repo ++ '/' :: ("blob/".data ++ (branch ++ '/' :: path))))))
      "raw.githubusercontent.com" = false) :
    FixGithub.convert_github_to_raw
        (String.mk (FixGithub.ghHead ++
          (user ++ '/' :: (repo ++ '/' :: ("blob/".data ++ (branch ++ '/' :: path)))))) =
      some (String.mk ("https://raw.githubusercontent.com/".data ++
        user ++ '/' :: repo ++ '/' :: branch ++ '/' :: path)) := by
  have hgh := ghHead_contains_github
    (user ++ '/' :: (repo ++ '/' :: ("blob/".data ++ (branch ++ '/' :: path))))
  have hbp := blobParse_eq user repo branch path hu hu2 hr hr2 hb hb2 hp
  simp only [FixGithub.convert_github_to_raw, hraw, hgh, data_mk,
    isPrefixOf_append_self, List.drop_left, hbp]
  simp

theorem ghConvert_tree (user repo branch path : List Char)
    (hu : user ≠ []) (hu2 : '/' ∉ user) (hr : repo ≠ []) (hr2 : '/' ∉ repo)
    (hb : branch ≠ []) (hb2 : '/' ∉ branch) (hp : path ≠ [])
    (hraw : strContains
      (String.mk (FixGithub.ghHead ++
        (user ++ '/' :: (repo ++ '/' :: ("tree/".data ++ (branch ++ '/' :: path))))))
      "raw.githubusercontent.com" = false) :
    FixGithub.convert_github_to_raw
        (String.mk (FixGithub.ghHead ++
          (user ++ '/' :: (repo ++ '/' :: ("tree/".data ++ (branch ++ '/' :: path)))))) =
      some (String.mk ("https://raw.githubusercontent.com/".data ++
        user ++ '/' :: repo ++ '/' :: branch ++ '/' :: path ++ "/README.md".data)) := by
  have hgh := ghHead_contains_github
    (user ++ '/' :: (repo ++ '/' :: ("tree/".data ++ (branch ++ '/' :: path))))
  have hbn := blobParse_tree_none user repo branch path hu2 hr2
  have htp := treeParse_eq user repo branch path hu hu2 hr hr2 hb hb2 hp
  simp only [FixGithub.convert_github_to_raw, hraw, hgh, data_mk,
    isPrefixOf_append_self, List.drop_left, hbn, htp]
  simp

theorem ghConvert_repo (user repo : List Char)
    (hu : user ≠ []) (hu2 : '/' ∉ user) (hr : repo ≠ []) (hr2 : '/' ∉ repo)
    (hraw : strContains (String.mk (FixGithub.ghHead ++ (user ++ '/' :: repo)))
      "raw.githubusercontent.com" = false) :
    FixGithub.convert_github_to_raw (String.mk (FixGithub.ghHead ++ (user ++ '/' :: repo))) =
      some (String.mk ("https://raw.githubusercontent.com/".data ++
        user ++ '/' :: repo ++ "/master/README.md".data)) := by
  have hgh := ghHead_contains_github (user ++ '/' :: repo)
  have hbn := blobParse_repo_none user repo hu2 hr2
  have htn := treeParse_repo_none user repo hu2 hr2
  have hrp := repoParse_eq user repo hu hu2 hr hr2
  simp only [FixGithub.convert_github_to_raw, hraw, hgh, data_mk,
    isPrefixOf_append_self, List.drop_left, hbn, htn, hrp]
  simp

/-- Counterexample for C10 as stated: a raw.githubusercontent.com URL does
not contain the substring "github.com", yet convert_github_to_raw returns it
unchanged rather than None; and a /tree/ URL with no path after the branch
is mapped to None, not to a README raw URL. -/
theorem c10_counterexample :
    strContains "https://raw.githubusercontent.com/a/b/master/f.txt" "github.com" = false ∧
    FixGithub.convert_github_to_raw "https://raw.githubusercontent.com/a/b/master/f.txt" =
      some "https://raw.githubusercontent.com/a/b/master/f.txt" ∧
    strContains "https://github.com/u/r/tree/master" "/tree/" = true ∧
    FixGithub.convert_github_to_raw "https://github.com/u/r/tree/master" = none := by
  refine ⟨by decide, by decide, by decide, by decide⟩

/-- C10 (amended). The raw passthrough takes precedence: any URL containing
"raw.githubusercontent.com" is returned unchanged. A URL containing neither
"raw.githubusercontent.com" nor "github.com" yields None. For URLs that do
not contain "raw.githubusercontent.com": a blob URL maps to the
corresponding raw URL, a tree URL with a non-empty path after the branch
maps to the raw URL with "/README.md" appended, and a bare user/repo URL
maps to the repository's master-branch README raw URL. -/
theorem c10_github_raw_mapping :
    (∀ url : String, strContains url "raw.githubusercontent.com" = true →
       FixGithub.convert_github_to_raw url = some url) ∧
    (∀ url : String, strContains url "raw.githubusercontent.com" = false →
       strContains url "github.com" = false →
       FixGithub.convert_github_to_raw url = none) ∧
    (∀ user repo branch path : List Char,
       user ≠ [] → '/' ∉ user → repo ≠ [] → '/' ∉ repo →
       branch ≠ [] → '/' ∉ branch → path ≠ [] →
       strContains (String.mk (FixGithub.ghHead ++
           (user ++ '/' :: (repo ++ '/' :: ("blob/".data ++ (branch ++ '/' :: path))))))
         "raw.githubusercontent.com" = false →
       FixGithub.convert_github_to_raw
           (String.mk (FixGithub.ghHead ++
             (user ++ '/' :: (repo ++ '/' :: ("blob/".data ++ (branch ++ '/' :: path)))))) =
         some (String.mk ("https://raw.githubusercontent.com/".data ++
           user ++ '/' :: repo ++ '/' :: branch ++ '/' :: path))) ∧
    (∀ user repo branch path : List Char,
       user ≠ [] → '/' ∉ user → repo ≠ [] → '/' ∉ repo →
       branch ≠ [] → '/' ∉ branch → path ≠ [] →
       strContains (String.mk (FixGithub.ghHead ++
           (user ++ '/' :: (repo ++ '/' :: ("tree/".data ++ (branch ++ '/' :: path))))))
         "raw.githubusercontent.com" = false →
       FixGithub.convert_github_to_raw
           (String.mk (FixGithub.ghHead ++
             (user ++ '/' :: (repo ++ '/' :: ("tree/".data ++ (branch ++ '/' :: path)))))) =
         some (String.mk ("https://raw.githubusercontent.com/".data ++
           user ++ '/' :: repo ++ '/' :: branch ++ '/' :: path ++ "/README.md".data))) ∧
    (∀ user repo : List Char,
       user ≠ [] → '/' ∉ user → repo ≠ [] → '/' ∉ repo →
       strContains (String.mk (FixGithub.ghHead ++ (user ++ '/' :: repo)))
         "raw.githubusercontent.com" = false →
       FixGithub.convert_github_to_raw
           (String.mk (FixGithub.ghHead ++ (user ++ '/' :: repo))) =
         some (String.mk ("https://raw.githubusercontent.com/".data ++
           user ++ '/' :: repo ++ "/master/README.md".data))) := by
  refine ⟨?_, ?_, ?_, ?_, ?_⟩
  · intro url h
    simp [FixGithub.convert_github_to_raw, h]
  · intro url h1 h2
    simp [FixGithub.convert_github_to_raw, h1, h2]
  · intro user repo branch path hu hu2 hr hr2 hb hb2 hp hraw
    exact ghConvert_blob user repo branch path hu hu2 hr hr2 hb hb2 hp hraw
  · intro user repo branch path hu hu2 hr hr2 hb hb2 hp hraw
    exact ghConvert_tree user repo branch path hu hu2 hr hr2 hb hb2 hp hraw
  · intro user repo hu hu2 hr hr2 hraw
    exact ghConvert_repo user repo hu hu2 hr hr2 hraw

/-- Witness for C10 on concrete blob, tree and bare-repo URLs. -/
theorem c10_github_raw_mapping_witness :
    FixGithub.convert_github_to_raw "https://raw.githubusercontent.com/a/b" =
      some "https://raw.githubusercontent.com/a/b" ∧
    FixGithub.convert_github_to_raw "http://example.com/x" = none ∧
    FixGithub.convert_github_to_raw
        (String.mk (FixGithub.ghHead ++
          ("u".data ++ '/' :: ("r".data ++ '/' :: ("blob/".data ++ ("main".data ++ '/' :: "f.txt".data)))))) =
      some (String.mk ("https://raw.githubusercontent.com/".data ++
        "u".data ++ '/' :: "r".data ++ '/' :: "main".data ++ '/' :: "f.txt".data)) ∧
    FixGithub.convert_github_to_raw
        (String.mk (FixGithub.ghHead ++
          ("u".data ++ '/' :: ("r".data ++ '/' :: ("tree/".data ++ ("main".data ++ '/' :: "dir".data)))))) =
      some (String.mk ("https://raw.githubusercontent.com/".data ++
        "u".data ++ '/' :: "r".data ++ '/' :: "main".data ++ '/' :: "dir".data ++ "/README.md".data)) ∧
    FixGithub.convert_github_to_raw
        (String.mk (FixGithub.ghHead ++ ("u".data ++ '/' :: "r".data))) =
      some (String.mk ("https://raw.githubusercontent.com/".data ++
        "u".data ++ '/' :: "r".data ++ "/master/README.md".data)) :=
  ⟨c10_github_raw_mapping.1 "https://raw.githubusercontent.com/a/b" (by decide),
   c10_github_raw_mapping.2.1 "http://example.com/x" (by decide) (by decide),
   c10_github_raw_mapping.2.2.1 "u".data "r".data "main".data "f.txt".data
     (by decide) (by decide) (by decide) (by decide) (by decide) (by decide)
     (by decide) (by decide),
   c10_github_raw_mapping.2.2.2.1 "u".data "r".data "main".data "dir".data
     (by decide) (by decide) (by decide) (by decide) (by decide) (by decide)
     (by decide) (by decide),
   c10_github_raw_mapping.2.2.2.2 "u".data "r".data
     (by decide) (by decide) (by decide) (by decide) (by decide)⟩

/-! ## Claim C6: link-syntax stripping -/

theorem reSub_nil (tryFn : Bool → List Char → Option (List Char × List Char))
    (f : Nat) (fl : Bool) : reSub tryFn f fl [] = [] := by
  cases f <;> rfl

theorem reSub_noMatch (tryFn : Bool → List Char → Option (List Char × List Char))
    (f : Nat) (fl : Bool) (s : List Char)
    (h : ∀ (fl' : Bool) (t : List Char), t <:+ s → t ≠ [] → tryFn fl' t = none) :
    reSub tryFn f fl s = s := by
  induction f generalizing fl s with
  | zero => rfl
  | succ f ih =>
    cases s with
    | nil => rfl
    | cons c cs =>
      have hn := h fl (c :: cs) List.suffix_rfl (by simp)
      simp only [reSub, hn]
      exact congrArg (c :: ·)
        (ih _ cs (fun fl' t ht htn => h fl' t (ht.trans (List.suffix_cons c cs)) htn))

theorem reSub_match_head (tryFn : Bool → List Char → Option (List Char × List Char))
    (c : Char) (cs rep : List Char) (f : Nat) (fl : Bool)
    (h : tryFn fl (c :: cs) = some (rep, [])) :
    reSub tryFn (f + 1) fl (c :: cs) = rep := by
  simp only [reSub, h]
  rw [reSub_nil]
  simp

theorem linkTry_exact (t u rest : List Char) (fl : Bool)
    (ht : t ≠ []) (ht2 : ']' ∉ t) (hu : ')' ∉ u) :
    linkTry fl ('[' :: (t ++ ']' :: '(' :: (u ++ ')' :: rest))) = some (t, rest) := by
  have h1 : (t ++ ']' :: '(' :: (u ++ ')' :: rest)).takeWhile (fun x => x != ']') = t :=
    takeWhile_ne_append ']' t _ ht2
  have h2 : (t ++ ']' :: '(' :: (u ++ ')' :: rest)).drop t.length =
      ']' :: '(' :: (u ++ ')' :: rest) := List.drop_left t _
  have h3 : (u ++ ')' :: rest).takeWhile (fun x => x != ')') = u :=
    takeWhile_ne_append ')' u rest hu
  have h4 : (u ++ ')' :: rest).drop u.length = ')' :: rest := List.drop_left u _
  simp only [linkTry, h1, h2, h3, h4]
  simp [ht]

theorem scanToBrkParen_over (a r : List Char) (h1 : ']' ∉ a) (h2 : '\n' ∉ a) :
    scanToBrkParen (a ++ ']' :: '(' :: r) = some r := by
  induction a with
  | nil => rfl
  | cons x a' ih =>
    have hx1 : x ≠ ']' := fun hx => h1 (hx ▸ List.mem_cons_self x a')
    have hx2 : x ≠ '\n' := fun hx => h2 (hx ▸ List.mem_cons_self x a')
    have ha1 : ']' ∉ a' := fun hd => h1 (List.mem_cons_of_mem x hd)
    have ha2 : '\n' ∉ a' := fun hd => h2 (List.mem_cons_of_mem x hd)
    have step : scanToBrkParen (x :: (a' ++ ']' :: '(' :: r)) =
        scanToBrkParen (a' ++ ']' :: '(' :: r) := by
      cases a' with
      | nil => simp [scanToBrkParen, hx1, hx2]
      | cons y a'' => simp [scanToBrkParen, hx1, hx2]
    rw [List.cons_append, step]
    exact ih ha1 ha2

theorem scanToParen_over (u r : List Char) (h1 : ')' ∉ u) (h2 : '\n' ∉ u) :
    scanToParen (u ++ ')' :: r) = some r := by
  induction u with
  | nil => rfl
  | cons x u' ih =>
    have hx1 : x ≠ ')' := fun hx => h1 (hx ▸ List.mem_cons_self x u')
    have hx2 : x ≠ '\n' := fun hx => h2 (hx ▸ List.mem_cons_self x u')
    rw [List.cons_append]
    simp only [scanToParen, hx1, hx2, if_false]
    exact ih (fun hd => h1 (List.mem_cons_of_mem x hd))
      (fun hd => h2 (List.mem_cons_of_mem x hd))

theorem imgTryLazy_exact (a u rest : List Char) (fl : Bool)
    (ha1 : ']' ∉ a) (ha2 : '\n' ∉ a) (hu1 : ')' ∉ u) (hu2 : '\n' ∉ u) :
    imgTryLazy fl ('!' :: '[' :: (a ++ ']' :: '(' :: (u ++ ')' :: rest))) =
      some ([], rest) := by
  simp only [imgTryLazy, scanToBrkParen_over a _ ha1 ha2, scanToParen_over u rest hu1 hu2]
  simp

theorem linkTry_none_head (fl : Bool) (c : Char) (cs : List Char) (h : c ≠ '[') :
    linkTry fl (c :: cs) = none := by
  simp [linkTry, h]

theorem imgTryBase_single (fl : Bool) (c : Char) : imgTryBase fl [c] = none := rfl

theorem imgTryBase_none_notbrk (fl : Bool) (c y : Char) (r : List Char) (h : y ≠ '[') :
    imgTryBase fl (c :: y :: r) = none := by
  simp [imgTryBase, h]

theorem boldStarTry_none_head (fl : Bool) (c : Char) (cs : List Char) (h : c ≠ '*') :
    boldStarTry fl (c :: cs) = none := by
  cases cs with
  | nil => rfl
  | cons y r => simp [boldStarTry, h]

theorem boldUnderTry_none_head (fl : Bool) (c : Char) (cs : List Char) (h : c ≠ '_') :
    boldUnderTry fl (c :: cs) = none := by
  cases cs with
  | nil => rfl
  | cons y r => simp [boldUnderTry, h]

theorem runSub_link_token (t u : List Char) (ht : t ≠ []) (ht2 : ']' ∉ t) (hu : ')' ∉ u) :
    runSub linkTry (String.mk ('[' :: (t ++ ']' :: '(' :: (u ++ [')'])))) = String.mk t := by
  apply congrArg String.mk
  rw [data_mk, List.length_cons]
  exact reSub_match_head linkTry '[' _ t _ true (linkTry_exact t u [] true ht ht2 hu)

theorem runSub_imgLazy_token (a u : List Char)
    (ha1 : ']' ∉ a) (ha2 : '\n' ∉ a) (hu1 : ')' ∉ u) (hu2 : '\n' ∉ u) :
    runSub imgTryLazy (String.mk ('!' :: '[' :: (a ++ ']' :: '(' :: (u ++ [')'])))) = "" := by
  unfold runSub
  rw [data_mk, List.length_cons]
  rw [reSub_match_head imgTryLazy '!' _ [] _ true
    (imgTryLazy_exact a u [] true ha1 ha2 hu1 hu2)]

theorem runSub_link_imgtoken (a u : List Char)
    (ha : a ≠ []) (ha2 : ']' ∉ a) (hu : ')' ∉ u) :
    runSub linkTry (String.mk ('!' :: '[' :: (a ++ ']' :: '(' :: (u ++ [')'])))) =
      String.mk ('!' :: a) := by
  apply congrArg String.mk
  rw [data_mk, List.length_cons, List.length_cons]
  have h0 : linkTry true ('!' :: '[' :: (a ++ ']' :: '(' :: (u ++ [')']))) = none :=
    linkTry_none_head true '!' _ (by decide)
  simp only [reSub, h0]
  refine congrArg ('!' :: ·) ?_
  exact reSub_match_head linkTry '[' _ a _ _ (linkTry_exact a u [] _ ha ha2 hu)

theorem runSub_imgBase_fixed (a : List Char) (ha : a ≠ []) (h1 : '[' ∉ a) :
    runSub imgTryBase (String.mk ('!' :: a)) = String.mk ('!' :: a) := by
  apply congrArg String.mk
  rw [data_mk]
  apply reSub_noMatch
  intro fl' t ht htn
  rcases List.suffix_cons_iff.mp ht with rfl | ht'
  · cases a with
    | nil => exact absurd rfl ha
    | cons x a' =>
      exact imgTryBase_none_notbrk fl' '!' x a' (fun hx => h1 (hx ▸ List.mem_cons_self x a'))
  · cases t with
    | nil => exact absurd rfl htn
    | cons c cs =>
      cases cs with
      | nil => exact imgTryBase_single fl' c
      | cons y r =>
        have hy : y ∈ a := ht'.subset (by simp)
        exact imgTryBase_none_notbrk fl' c y r (fun hx => h1 (hx ▸ hy))

theorem runSub_star_fixed (s : List Char) (h : ∀ c ∈ s, c ≠ '*') :
    runSub boldStarTry (String.mk s) = String.mk s := by
  apply congrArg String.mk
  rw [data_mk]
  apply reSub_noMatch
  intro fl' t ht htn
  cases t with
  | nil => exact absurd rfl htn
  | cons c cs =>
    exact boldStarTry_none_head fl' c cs (h c (ht.subset (by simp)))

theorem runSub_under_fixed (s : List Char) (h : ∀ c ∈ s, c ≠ '_') :
    runSub boldUnderTry (String.mk s) = String.mk s := by
  apply congrArg String.mk
  rw [data_mk]
  apply reSub_noMatch
  intro fl' t ht htn
  cases t with
  | nil => exact absurd rfl htn
  | cons c cs =>
    exact boldUnderTry_none_head fl' c cs (h c (ht.subset (by simp)))

/-- Counterexample for C6 as stated: in extract_substance.py the link
substitution runs before the image substitution, so the image token
`![alt](url)` on a kept line is rewritten to `!alt` rather than dropped
entirely. -/
theorem c6_counterexample :
    ExtractSubstance.baseLineCleanup "![alt](url)" = "!alt" ∧ ("!alt" : String) ≠ "" := by
  refine ⟨by decide, by decide⟩

/-- C6 (amended). The concrete example holds under both per-line cleanups:
"See [here](http://x.com/y) for details." becomes "See here for details.".
A line consisting of a single link token `[text](url)` (non-empty text
without `]`, url without `)`) is rewritten to its text by the link
substitution both cleanups use. polish_files.py substitutes images before
links, so a lone image token is dropped entirely there; in
extract_substance.py the link substitution runs first, so an image token
with non-empty alt text is rewritten to `!` followed by the alt text
instead of being dropped. -/
theorem c6_link_syntax_stripping :
    (ExtractSubstance.baseLineCleanup "See [here](http://x.com/y) for details." =
        "See here for details." ∧
     PolishFiles.markdownCleanup "See [here](http://x.com/y) for details." =
        "See here for details.") ∧
    (∀ t u : List Char, t ≠ [] → ']' ∉ t → ')' ∉ u →
       runSub linkTry (String.mk ('[' :: (t ++ ']' :: '(' :: (u ++ [')'])))) = String.mk t) ∧
    (∀ a u : List Char, ']' ∉ a → '\n' ∉ a → ')' ∉ u → '\n' ∉ u →
       runSub imgTryLazy (String.mk ('!' :: '[' :: (a ++ ']' :: '(' :: (u ++ [')'])))) = "") ∧
    (∀ a u : List Char, a ≠ [] → '[' ∉ a → ']' ∉ a → '*' ∉ a → '_' ∉ a → ')' ∉ u →
       ExtractSubstance.baseLineCleanup
           (String.mk ('!' :: '[' :: (a ++ ']' :: '(' :: (u ++ [')'])))) =
         String.mk ('!' :: a)) := by
  refine ⟨⟨by decide, by decide⟩, ?_, ?_, ?_⟩
  · intro t u ht ht2 hu
    exact runSub_link_token t u ht ht2 hu
  · intro a u ha1 ha2 hu1 hu2
    exact runSub_imgLazy_token a u ha1 ha2 hu1 hu2
  · intro a u ha hb ha2 hs hun hu
    unfold ExtractSubstance.baseLineCleanup
    rw [runSub_link_imgtoken a u ha ha2 hu]
    rw [runSub_imgBase_fixed a ha hb]
    rw [runSub_star_fixed ('!' :: a) ?hstar]
    rw [runSub_under_fixed ('!' :: a) ?hunder]
    case hstar =>
      intro c hc
      rcases List.mem_cons.mp hc with rfl | hc'
      · decide
      · exact fun hx => hs (hx ▸ hc')
    case hunder =>
      intro c hc
      rcases List.mem_cons.mp hc with rfl | hc'
      · decide
      · exact fun hx => hun (hx ▸ hc')

/-- Witness for C6 at concrete tokens. -/
theorem c6_link_syntax_stripping_witness :
    runSub linkTry (String.mk ('[' :: ("here".data ++ ']' :: '(' :: ("u".data ++ [')'])))) =
      String.mk "here".data ∧
    runSub imgTryLazy
        (String.mk ('!' :: '[' :: ("alt".data ++ ']' :: '(' :: ("u".data ++ [')'])))) = "" ∧
    ExtractSubstance.baseLineCleanup
        (String.mk ('!' :: '[' :: ("alt".data ++ ']' :: '(' :: ("u".data ++ [')'])))) =
      String.mk ('!' :: "alt".data) :=
  ⟨c6_link_syntax_stripping.2.1 "here".data "u".data (by decide) (by decide) (by decide),
   c6_link_syntax_stripping.2.2.1 "alt".data "u".data (by decide) (by decide) (by decide)
     (by decide),
   c6_link_syntax_stripping.2.2.2 "alt".data "u".data (by decide) (by decide) (by decide)
     (by decide) (by decide) (by decide)⟩

/-! ## Claim C1: header idempotence -/

/-- The serialized two-line header, as the record format defines it. -/
def headerTwoLines (u v : String) : String :=
  "Source URL: " ++ u ++ "\n" ++ "Final URL: " ++ v ++ "\n"

theorem mk_data (s : String) : String.mk s.data = s := rfl

theorem source_line_starts (u : String) :
    strStartsWith "Source URL:" ("Source URL: " ++ u) = true := by
  show ("Source URL:".data).isPrefixOf ("Source URL: " ++ u).data = true
  rw [data_append]
  exact isPrefixOf_append_of_isPrefixOf _ _ _ (by decide)

theorem final_line_starts (v : String) :
    strStartsWith "Final URL:" ("Final URL: " ++ v) = true := by
  show ("Final URL:".data).isPrefixOf ("Final URL: " ++ v).data = true
  rw [data_append]
  exact isPrefixOf_append_of_isPrefixOf _ _ _ (by decide)

theorem source_not_on_final (v : String) :
    strStartsWith "Source URL:" ("Final URL: " ++ v) = false := rfl

theorem final_not_on_source (u : String) :
    strStartsWith "Final URL:" ("Source URL: " ++ u) = false := rfl

theorem sep_not_source (sep : String) (n : Nat)
    (hsep : sep.data = List.replicate n '=') (hn : 10 ≤ n) :
    strStartsWith "Source URL:" sep = false := by
  obtain ⟨m, rfl⟩ : ∃ m, n = m + 10 := ⟨n - 10, by omega⟩
  show ("Source URL:".data).isPrefixOf sep.data = false
  rw [hsep]
  rfl

theorem sep_not_final (sep : String) (n : Nat)
    (hsep : sep.data = List.replicate n '=') (hn : 10 ≤ n) :
    strStartsWith "Final URL:" sep = false := by
  obtain ⟨m, rfl⟩ : ∃ m, n = m + 10 := ⟨n - 10, by omega⟩
  show ("Final URL:".data).isPrefixOf sep.data = false
  rw [hsep]
  rfl

theorem sep_contains_ten (sep : String) (n : Nat)
    (hsep : sep.data = List.replicate n '=') (hn : 10 ≤ n) :
    strContains sep "==========" = true := by
  obtain ⟨m, rfl⟩ : ∃ m, n = 10 + m := ⟨n - 10, by omega⟩
  show containsSub "==========".data sep.data = true
  rw [hsep, List.replicate_add]
  apply containsSub_of_isPrefixOf
  have h10 : "==========".data = List.replicate 10 '=' := by decide
  rw [h10]
  exact isPrefixOf_append_self _ _

theorem metaScan_header (u v sep : String) (body : List String) (n : Nat)
    (hsep : sep.data = List.replicate n '=') (hn : 10 ≤ n) :
    ExtractSubstance.metaScan 0
        (("Source URL: " ++ u) :: ("Final URL: " ++ v) :: sep :: body) =
      ([pyRstrip ("Source URL: " ++ u), pyRstrip ("Final URL: " ++ v)], 3) := by
  simp [ExtractSubstance.metaScan, source_line_starts, final_line_starts,
    source_not_on_final, final_not_on_source, sep_not_source sep n hsep hn,
    sep_not_final sep n hsep hn, sep_contains_ten sep n hsep hn]

theorem rstrip_header_line (pre u : String) (hu : pyRstrip u = u) (h0 : u ≠ "") :
    pyRstrip (pre ++ u) = pre ++ u :=
  rstrip_fixed_append pre u hu h0

theorem pyStrip_space (u : String) (h1 : pyLstrip u = u) (h2 : pyRstrip u = u)
    (h0 : u ≠ "") : pyStrip (" " ++ u) = u := by
  unfold pyStrip
  rw [rstrip_fixed_append " " u h2 h0]
  show String.mk (((" " ++ u).data).dropWhile pyIsSpace) = u
  rw [data_append]
  have hd : u.data.dropWhile pyIsSpace = u.data := congrArg String.data h1
  have hstep : ((" ".data) ++ u.data).dropWhile pyIsSpace = u.data.dropWhile pyIsSpace := by
    show ((' ' :: []) ++ u.data).dropWhile pyIsSpace = u.data.dropWhile pyIsSpace
    rw [List.cons_append, List.nil_append, List.dropWhile_cons]
    rw [if_pos (by decide)]
  rw [hstep, hd]

theorem strReplace_source_line (u : String) (hu4 : strContains u "Source URL:" = false) :
    strReplace ("Source URL: " ++ u) "Source URL:" "" = " " ++ u := by
  apply strExt
  show replGo "Source URL:".data [] ("Source URL: " ++ u).data.length
      ("Source URL: " ++ u).data = (" " ++ u).data
  have hshape : ("Source URL: " ++ u).data = "Source URL:".data ++ (' ' :: u.data) := by
    rw [data_append]
    rfl
  rw [hshape]
  have hnc : containsSub "Source URL:".data (' ' :: u.data) = false := by
    have h1 : ("Source URL:".data).isPrefixOf (' ' :: u.data) = false := rfl
    simp [containsSub, h1]
    exact hu4
  rw [replGo_head_match "Source URL:".data (' ' :: u.data) (by decide) hnc]
  rfl

theorem strReplace_final_line (v : String) (hv4 : strContains v "Final URL:" = false) :
    strReplace ("Final URL: " ++ v) "Final URL:" "" = " " ++ v := by
  apply strExt
  show replGo "Final URL:".data [] ("Final URL: " ++ v).data.length
      ("Final URL: " ++ v).data = (" " ++ v).data
  have hshape : ("Final URL: " ++ v).data = "Final URL:".data ++ (' ' :: v.data) := by
    rw [data_append]
    rfl
  rw [hshape]
  have hnc : containsSub "Final URL:".data (' ' :: v.data) = false := by
    have h1 : ("Final URL:".data).isPrefixOf (' ' :: v.data) = false := rfl
    simp [containsSub, h1]
    exact hv4
  rw [replGo_head_match "Final URL:".data (' ' :: v.data) (by decide) hnc]
  rfl

theorem metaFold_skip (acc : Option String × Option String) (ls : List String)
    (h : ∀ l ∈ ls, strStartsWith "Source URL:" l = false ∧
      strStartsWith "Final URL:" l = false) :
    ConvertHtml.metaFold acc ls = acc := by
  induction ls generalizing acc with
  | nil => rfl
  | cons x r ih =>
    have hx := h x (List.mem_cons_self x r)
    simp only [ConvertHtml.metaFold, hx.1, hx.2, Bool.false_eq_true, if_false]
    exact ih acc (fun l hl => h l (List.mem_cons_of_mem x hl))

theorem extract_metadata_file (u v sep : String) (body : List String) (n : Nat)
    (hsep : sep.data = List.replicate n '=') (hn : 10 ≤ n)
    (hu1 : pyLstrip u = u) (hu2 : pyRstrip u = u) (hu0 : u ≠ "")
    (hv1 : pyLstrip v = v) (hv2 : pyRstrip v = v) (hv0 : v ≠ "")
    (hu4 : strContains u "Source URL:" = false)
    (hv4 : strContains v "Final URL:" = false)
    (hbody : ∀ l ∈ body.take 2, strStartsWith "Source URL:" l = false ∧
      strStartsWith "Final URL:" l = false) :
    ConvertHtml.extract_metadata
        (("Source URL: " ++ u) :: ("Final URL: " ++ v) :: sep :: body) =
      (some u, some v) := by
  unfold ConvertHtml.extract_metadata
  have htake : (("Source URL: " ++ u) :: ("Final URL: " ++ v) :: sep :: body).take 5 =
      ("Source URL: " ++ u) :: ("Final URL: " ++ v) :: sep :: body.take 2 := rfl
  rw [htake]
  simp only [ConvertHtml.metaFold, source_line_starts u, source_not_on_final v,
    final_line_starts v, sep_not_source sep n hsep hn, sep_not_final sep n hsep hn,
    Bool.false_eq_true, if_false, if_true,
    strReplace_source_line u hu4, strReplace_final_line v hv4,
    pyStrip_space u hu1 hu2 hu0, pyStrip_space v hv1 hv2 hv0]
  exact metaFold_skip _ _ hbody

theorem process_file_header (clean : String → String) (u v sep : String)
    (body : List String) (n : Nat)
    (hsep : sep.data = List.replicate n '=') (hn : 10 ≤ n)
    (hu1 : pyLstrip u = u) (hu2 : pyRstrip u = u) (hu0 : u ≠ "")
    (hv1 : pyLstrip v = v) (hv2 : pyRstrip v = v) (hv0 : v ≠ "")
    (hu4 : strContains u "Source URL:" = false)
    (hv4 : strContains v "Final URL:" = false)
    (hbody : ∀ l ∈ body.take 2, strStartsWith "Source URL:" l = false ∧
      strStartsWith "Final URL:" l = false) :
    ∃ r, ConvertHtml.process_file clean
        (("Source URL: " ++ u) :: ("Final URL: " ++ v) :: sep :: body) =
      headerTwoLines u v ++ r := by
  have key : ConvertHtml.process_file clean
      (("Source URL: " ++ u) :: ("Final URL: " ++ v) :: sep :: body) =
      headerTwoLines u v ++ (String.mk (List.replicate 80 '=') ++ "\n\n" ++
        clean (joinLines ((("Source URL: " ++ u) :: ("Final URL: " ++ v) :: sep :: body).drop
          (ConvertHtml.endScan 0
            (("Source URL: " ++ u) :: ("Final URL: " ++ v) :: sep :: body))))) := by
    unfold ConvertHtml.process_file
    rw [extract_metadata_file u v sep body n hsep hn hu1 hu2 hu0 hv1 hv2 hv0 hu4 hv4 hbody]
    apply strExt
    simp [headerTwoLines, data_append, List.append_assoc]
  exact ⟨_, key⟩

theorem extract_substance_header (u v sep : String) (body : List String) (n : Nat)
    (hsep : sep.data = List.replicate n '=') (hn : 10 ≤ n)
    (hu2 : pyRstrip u = u) (hu0 : u ≠ "")
    (hv2 : pyRstrip v = v) (hv0 : v ≠ "") :
    ∃ r, ExtractSubstance.extract_substance
        (("Source URL: " ++ u) :: ("Final URL: " ++ v) :: sep :: body) =
      headerTwoLines u v ++ r := by
  have key : ExtractSubstance.extract_substance
      (("Source URL: " ++ u) :: ("Final URL: " ++ v) :: sep :: body) =
      headerTwoLines u v ++ (String.mk (List.replicate 80 '=') ++ "\n\n" ++
        joinLines (body.filterMap ExtractSubstance.keepLine)) := by
    unfold ExtractSubstance.extract_substance
    rw [metaScan_header u v sep body n hsep hn]
    rw [rstrip_header_line "Source URL: " u hu2 hu0,
      rstrip_header_line "Final URL: " v hv2 hv0]
    apply strExt
    simp [headerTwoLines, joinLines, data_append, List.append_assoc]
  exact ⟨_, key⟩

theorem headerScan_cons (i : Nat) (x : String) (r : List String) :
    PolishFiles.headerScan i (x :: r) =
      if PolishFiles.headerScan (i + 1) r ≠ 0 then PolishFiles.headerScan (i + 1) r
      else if PolishFiles.headerCond x then i + 2 else 0 := rfl

theorem headerScan_zero_or_ge (l : List String) : ∀ i : Nat,
    PolishFiles.headerScan i l = 0 ∨ i + 2 ≤ PolishFiles.headerScan i l := by
  induction l with
  | nil => intro i; exact Or.inl rfl
  | cons x r ih =>
    intro i
    rw [headerScan_cons]
    rcases ih (i + 1) with h | h
    · rw [h, if_neg (by simp)]
      by_cases hx : PolishFiles.headerCond x = true
      · rw [if_pos hx]
        exact Or.inr (Nat.le_refl _)
      · rw [if_neg hx]
        exact Or.inl rfl
    · rw [if_pos (by omega)]
      exact Or.inr (by omega)

theorem headerScan_file_ge (l0 l1 sep : String) (body : List String)
    (hc : PolishFiles.headerCond sep = true) :
    4 ≤ PolishFiles.headerScan 0 (l0 :: l1 :: sep :: body) := by
  have hsep4 : 4 ≤ PolishFiles.headerScan 2 (sep :: body) := by
    have e : PolishFiles.headerScan 2 (sep :: body) =
        if PolishFiles.headerScan 3 body ≠ 0 then PolishFiles.headerScan 3 body
        else if PolishFiles.headerCond sep then 4 else 0 := rfl
    rw [e]
    rcases headerScan_zero_or_ge body 3 with h | h
    · rw [h, if_neg (by simp), if_pos hc]
    · rw [if_pos (by omega)]
      omega
  have hne2 : PolishFiles.headerScan 2 (sep :: body) ≠ 0 := by omega
  have e0 : PolishFiles.headerScan 0 (l0 :: l1 :: sep :: body) =
      if PolishFiles.headerScan 1 (l1 :: sep :: body) ≠ 0 then
        PolishFiles.headerScan 1 (l1 :: sep :: body)
      else if PolishFiles.headerCond l0 then 2 else 0 := rfl
  have e1 : PolishFiles.headerScan 1 (l1 :: sep :: body) =
      if PolishFiles.headerScan 2 (sep :: body) ≠ 0 then
        PolishFiles.headerScan 2 (sep :: body)
      else if PolishFiles.headerCond l1 then 3 else 0 := rfl
  rw [e0, e1, if_pos hne2, if_pos hne2]
  exact hsep4

theorem polish_file_header (u v sep : String) (body : List String) (n : Nat)
    (hsep : sep.data = List.replicate n '=') (hn : 10 ≤ n) :
    ∃ r, PolishFiles.polish_file
        (("Source URL: " ++ u) :: ("Final URL: " ++ v) :: sep :: body) =
      headerTwoLines u v ++ r := by
  have hc : PolishFiles.headerCond sep = true := by
    unfold PolishFiles.headerCond
    rw [sep_contains_ten sep n hsep hn]
    simp
  have h4 := headerScan_file_ge ("Source URL: " ++ u) ("Final URL: " ++ v) sep body hc
  obtain ⟨m, hm⟩ : ∃ m, PolishFiles.headerScan 0
      (("Source URL: " ++ u) :: ("Final URL: " ++ v) :: sep :: body) = m + 4 :=
    ⟨PolishFiles.headerScan 0
      (("Source URL: " ++ u) :: ("Final URL: " ++ v) :: sep :: body) - 4, by omega⟩
  have htake : (("Source URL: " ++ u) :: ("Final URL: " ++ v) :: sep :: body).take (m + 4) =
      ("Source URL: " ++ u) :: ("Final URL: " ++ v) :: sep :: body.take (m + 1) := rfl
  have hjoin : joinLines (("Source URL: " ++ u) :: ("Final URL: " ++ v) :: sep ::
      body.take (m + 1)) = headerTwoLines u v ++ joinLines (sep :: body.take (m + 1)) := by
    apply strExt
    simp [headerTwoLines, joinLines, data_append, List.append_assoc]
  have hex : ∃ c ∈ (joinLines (sep :: body.take (m + 1))).data, pyIsSpace c = false := by
    have hmem : '=' ∈ sep.data := by
      rw [hsep]
      exact List.mem_replicate.mpr ⟨by omega, rfl⟩
    cases hb : body.take (m + 1) with
    | nil => exact ⟨'=', by simp [joinLines, hmem], by decide⟩
    | cons x r => exact ⟨'=', by simp [joinLines, data_append, hmem], by decide⟩
  have key : PolishFiles.polish_file
      (("Source URL: " ++ u) :: ("Final URL: " ++ v) :: sep :: body) =
      headerTwoLines u v ++ (pyRstrip (joinLines (sep :: body.take (m + 1))) ++ "\n\n" ++
        PolishFiles.polishBody (joinLines
          ((("Source URL: " ++ u) :: ("Final URL: " ++ v) :: sep :: body).drop (m + 4)))) := by
    show pyRstrip (joinLines ((("Source URL: " ++ u) :: ("Final URL: " ++ v) :: sep :: body).take
        (PolishFiles.headerScan 0
          (("Source URL: " ++ u) :: ("Final URL: " ++ v) :: sep :: body)))) ++ "\n\n" ++
      PolishFiles.polishBody (joinLines
        ((("Source URL: " ++ u) :: ("Final URL: " ++ v) :: sep :: body).drop
          (PolishFiles.headerScan 0
            (("Source URL: " ++ u) :: ("Final URL: " ++ v) :: sep :: body)))) = _
    rw [hm, htake, hjoin, rstrip_append_keep _ _ hex]
    apply strExt
    simp [data_append, List.append_assoc]
  exact ⟨_, key⟩

/-- Counterexample for C1 as stated: process_file re-reads the header from
the first five lines of the file and later matches overwrite earlier ones,
so a body line "Source URL: http://evil" directly after the separator
replaces the real source URL in the rewritten header, for any body from
there on (the outcome is independent of the delegated HTML cleaning, here
instantiated with the identity). -/
theorem c1_counterexample :
    strStartsWith "Source URL: http://a"
      (ConvertHtml.process_file (fun s => s)
        ["Source URL: http://a", "Final URL: http://b",
         String.mk (List.replicate 80 '='), "Source URL: http://evil"]) = false ∧
    strStartsWith "Source URL: http://evil"
      (ConvertHtml.process_file (fun s => s)
        ["Source URL: http://a", "Final URL: http://b",
         String.mk (List.replicate 80 '='), "Source URL: http://evil"]) = true := by
  refine ⟨by decide, by decide⟩

/-- C1 (amended). For a record file whose first lines are
`Source URL: <u>`, `Final URL: <v>` and a separator of at least ten `=`,
each of the three filter passes writes back a file that begins with the two
header lines verbatim, provided that u and v are non-empty, carry no leading
or trailing whitespace, and do not contain the header prefixes as
substrings, and that no body line among the first five lines of the file
starts with `Source URL:` or `Final URL:` (without the last two provisos,
process_file's header re-parse rewrites the URLs, as the counterexample
shows; polish_file needs none of them). -/
theorem c1_header_idempotence (clean : String → String) (u v sep : String)
    (body : List String) (n : Nat)
    (hsep : sep.data = List.replicate n '=') (hn : 10 ≤ n)
    (hu1 : pyLstrip u = u) (hu2 : pyRstrip u = u) (hu0 : u ≠ "")
    (hv1 : pyLstrip v = v) (hv2 : pyRstrip v = v) (hv0 : v ≠ "")
    (hu4 : strContains u "Source URL:" = false)
    (hv4 : strContains v "Final URL:" = false)
    (hbody : ∀ l ∈ body.take 2, strStartsWith "Source URL:" l = false ∧
      strStartsWith "Final URL:" l = false) :
    (∃ r, ExtractSubstance.extract_substance
        (("Source URL: " ++ u) :: ("Final URL: " ++ v) :: sep :: body) =
      headerTwoLines u v ++ r) ∧
    (∃ r, PolishFiles.polish_file
        (("Source URL: " ++ u) :: ("Final URL: " ++ v) :: sep :: body) =
      headerTwoLines u v ++ r) ∧
    (∃ r, ConvertHtml.process_file clean
        (("Source URL: " ++ u) :: ("Final URL: " ++ v) :: sep :: body) =
      headerTwoLines u v ++ r) :=
  ⟨extract_substance_header u v sep body n hsep hn hu2 hu0 hv2 hv0,
   polish_file_header u v sep body n hsep hn,
   process_file_header clean u v sep body n hsep hn hu1 hu2 hu0 hv1 hv2 hv0 hu4 hv4 hbody⟩

/-- Witness for C1 on a concrete record file. -/
theorem c1_header_idempotence_witness :
    (∃ r, ExtractSubstance.extract_substance
        (("Source URL: " ++ "http://a") :: ("Final URL: " ++ "http://b") ::
          String.mk (List.replicate 10 '=') :: ["Body text."]) =
      headerTwoLines "http://a" "http://b" ++ r) ∧
    (∃ r, PolishFiles.polish_file
        (("Source URL: " ++ "http://a") :: ("Final URL: " ++ "http://b") ::
          String.mk (List.replicate 10 '=') :: ["Body text."]) =
      headerTwoLines "http://a" "http://b" ++ r) ∧
    (∃ r, ConvertHtml.process_file (fun s => s)
        (("Source URL: " ++ "http://a") :: ("Final URL: " ++ "http://b") ::
          String.mk (List.replicate 10 '=') :: ["Body text."]) =
      headerTwoLines "http://a" "http://b" ++ r) :=
  c1_header_idempotence (fun s => s) "http://a" "http://b"
    (String.mk (List.replicate 10 '=')) ["Body text."] 10 rfl (by decide)
    (by decide) (by decide) (by decide) (by decide) (by decide) (by decide)
    (by decide) (by decide) (by decide)
